import Mathlib

/-!
Verification of the b3d chunked binary decoder (scpcbredux/b3d, src/lib.rs,
src/utils.rs, src/error.rs) against its specification.

Shallow embedding conventions:
* A buffer is a `List Nat` of byte values; the cursor is an explicit position.
* Every reader returns `Except DErr (value × newPosition)`, mirroring the Rust
  readers that advance a `Cursor` and return `Result`.
* 32-bit IEEE-754 floats are carried as their raw little-endian bit patterns
  (`Nat`): the decoder never performs any float arithmetic, it only moves the
  four bytes into a field, so the bit-pattern model is exact.  The Rust default
  value `0.0f32` corresponds to the pattern `0`.
* Rust strings are carried as their UTF-8 byte lists.
* `read_null_term_string` in utils.rs calls `.unwrap()` on `read_u8` and on
  `String::from_utf8`; a Rust panic is modelled by the dedicated outcomes
  `DErr.panicEof` and `DErr.panicUtf8`, which are distinct from the error
  values (`B3dError::IO`, `B3dError::Utf8`, `B3dError::InvalidChunk`) that the
  library returns to its caller.
* The `while eof(data, next)?` loops and the `Node::read` recursion are
  expressed as structural recursion over a fuel parameter; `B3D.read` supplies
  `buf.length + 1` fuel, far more than any run can consume (each loop
  iteration advances the cursor by at least one byte and the cursor is bounded
  by the buffer length).  Running out of fuel is a separate outcome
  `DErr.outOfFuel` that no theorem below ever confuses with the program's own
  behaviour.
-/

namespace B3d

/-- `Vec2` from utils.rs: two f32 bit patterns. -/
abbrev Vec2 := Nat × Nat

/-- `Vec3` from utils.rs: three f32 bit patterns. -/
abbrev Vec3 := Nat × Nat × Nat

/-- `Vec4` from utils.rs: four f32 bit patterns. -/
abbrev Vec4 := Nat × Nat × Nat × Nat

/-- The transient chunk header of utils.rs (`Chunk`): tag bytes, declared body
size, absolute start offset, computed end offset `position + size + 8`. -/
structure Chunk where
  tag : List Nat
  size : Nat
  position : Nat
  next : Nat
  deriving DecidableEq, Repr

/-- Decode outcomes.  `ioErr`, `utf8Err` and `invalidChunk` model the three
`B3dError` variants of error.rs (an I/O-bounds error, a text-decode error on a
chunk tag, an illegal chunk).  `panicEof` and `panicUtf8` model the two
`unwrap()` panics inside `read_null_term_string`.  `outOfFuel` is the fuel
artefact of the embedding. -/
inductive DErr where
  | ioErr : DErr
  | utf8Err : DErr
  | invalidChunk : Chunk → DErr
  | panicEof : DErr
  | panicUtf8 : DErr
  | outOfFuel : DErr
  deriving DecidableEq, Repr

/-- Sequencing of position-threading readers (the `?` operator / `let x = r?`
chains of the Rust code). -/
def rbind {α β : Type} (x : Except DErr (α × Nat))
    (f : α → Nat → Except DErr (β × Nat)) : Except DErr (β × Nat) :=
  match x with
  | .error e => .error e
  | .ok (a, p) => f a p

/-- Byte access; all reads are guarded by explicit bounds checks so the
default value is never observable. -/
def getByte (buf : List Nat) (i : Nat) : Nat := buf.getD i 0

/-- `read_u32::<LittleEndian>`: four bytes, little endian, or an I/O error
when fewer than four bytes remain. -/
def readU32 (buf : List Nat) (pos : Nat) : Except DErr (Nat × Nat) :=
  if pos + 4 ≤ buf.length then
    .ok (getByte buf pos + 256 * getByte buf (pos + 1) +
         65536 * getByte buf (pos + 2) + 16777216 * getByte buf (pos + 3),
         pos + 4)
  else .error .ioErr

/-- `read_f32::<LittleEndian>`: the decoder only transports the 4 raw bytes,
so an f32 read is a u32 read of the bit pattern. -/
def readF32 (buf : List Nat) (pos : Nat) : Except DErr (Nat × Nat) :=
  readU32 buf pos

/-- `read_f32_into` with a `[f32; 2]` target. -/
def readF32x2 (buf : List Nat) (pos : Nat) : Except DErr (Vec2 × Nat) :=
  rbind (readF32 buf pos) fun a p =>
  rbind (readF32 buf p) fun b q =>
  .ok ((a, b), q)

/-- `read_f32_into` with a `[f32; 3]` target. -/
def readF32x3 (buf : List Nat) (pos : Nat) : Except DErr (Vec3 × Nat) :=
  rbind (readF32 buf pos) fun a p =>
  rbind (readF32 buf p) fun b q =>
  rbind (readF32 buf q) fun c r =>
  .ok ((a, b, c), r)

/-- `read_f32_into` with a `[f32; 4]` target. -/
def readF32x4 (buf : List Nat) (pos : Nat) : Except DErr (Vec4 × Nat) :=
  rbind (readF32 buf pos) fun a p =>
  rbind (readF32 buf p) fun b q =>
  rbind (readF32 buf q) fun c r =>
  rbind (readF32 buf r) fun d s =>
  .ok ((a, b, c, d), s)

/-- `read_u32_into` with a `[u32; 3]` target (triangle faces). -/
def readU32x3 (buf : List Nat) (pos : Nat) : Except DErr ((Nat × Nat × Nat) × Nat) :=
  rbind (readU32 buf pos) fun a p =>
  rbind (readU32 buf p) fun b q =>
  rbind (readU32 buf q) fun c r =>
  .ok ((a, b, c), r)

/-- `read_exact` of the 4 tag bytes in `Chunk::read`. -/
def readTag (buf : List Nat) (pos : Nat) : Except DErr (List Nat × Nat) :=
  if pos + 4 ≤ buf.length then
    .ok ([getByte buf pos, getByte buf (pos + 1),
          getByte buf (pos + 2), getByte buf (pos + 3)], pos + 4)
  else .error .ioErr

/-- UTF-8 continuation byte. -/
def isCont (b : Nat) : Bool := 128 ≤ b && b ≤ 191

/-- Validity of a byte sequence as UTF-8, as checked by Rust's
`String::from_utf8` (RFC 3629: no overlong forms, no surrogates, max
U+10FFFF). -/
def validUtf8 : List Nat → Bool
  | [] => true
  | b :: rest =>
    if b ≤ 127 then validUtf8 rest
    else if b ≤ 193 then false
    else if b ≤ 223 then
      match rest with
      | c1 :: r => isCont c1 && validUtf8 r
      | [] => false
    else if b ≤ 239 then
      match rest with
      | c1 :: c2 :: r =>
        (if b = 224 then 160 ≤ c1 && c1 ≤ 191
         else if b = 237 then 128 ≤ c1 && c1 ≤ 159
         else isCont c1) && isCont c2 && validUtf8 r
      | _ => false
    else if b ≤ 244 then
      match rest with
      | c1 :: c2 :: c3 :: r =>
        (if b = 240 then 144 ≤ c1 && c1 ≤ 191
         else if b = 244 then 128 ≤ c1 && c1 ≤ 143
         else isCont c1) && isCont c2 && isCont c3 && validUtf8 r
      | _ => false
    else false

/-- Index of the first zero byte in a list. -/
def findZero : List Nat → Option Nat
  | [] => none
  | b :: rest => if b = 0 then some 0 else (findZero rest).map (· + 1)

/-- `read_null_term_string` of utils.rs: read bytes until a zero byte, then
decode as UTF-8.  Both failure points are `unwrap()` panics in the source:
hitting end-of-buffer before a terminator (`data.read_u8().unwrap()`) and
invalid UTF-8 (`String::from_utf8(string).unwrap()`). -/
def readNTString (buf : List Nat) (pos : Nat) : Except DErr (List Nat × Nat) :=
  match findZero (buf.drop pos) with
  | none => .error .panicEof
  | some i =>
    let s := (buf.drop pos).take i
    if validUtf8 s then .ok (s, pos + i + 1) else .error .panicUtf8

/-- `Chunk::read` of utils.rs: 4 tag bytes (I/O error if short, text-decode
error if not UTF-8), then a little-endian u32 size;
`next = position + size + 8`. -/
def Chunk.read (buf : List Nat) (pos : Nat) : Except DErr (Chunk × Nat) :=
  rbind (readTag buf pos) fun tagBytes p =>
  if validUtf8 tagBytes then
    rbind (readU32 buf p) fun size q =>
    .ok ({ tag := tagBytes, size := size, position := pos,
           next := pos + size + 8 }, q)
  else .error .utf8Err

/-- Tag byte constants ("BB3D", "TEXS", "BRUS", "NODE", "MESH", "BONE",
"KEYS", "ANIM", "SEQS"). -/
def tBB3D : List Nat := [66, 66, 51, 68]

def tTEXS : List Nat := [84, 69, 88, 83]

def tBRUS : List Nat := [66, 82, 85, 83]

def tNODE : List Nat := [78, 79, 68, 69]

def tMESH : List Nat := [77, 69, 83, 72]

def tBONE : List Nat := [66, 79, 78, 69]

def tKEYS : List Nat := [75, 69, 89, 83]

def tANIM : List Nat := [65, 78, 73, 77]

def tSEQS : List Nat := [83, 69, 81, 83]

/-- lib.rs `Texture`. -/
structure Texture where
  file : List Nat
  flags : Nat
  blend : Nat
  position : Vec2
  scale : Vec2
  rotation : Nat
  deriving DecidableEq, Repr

/-- lib.rs `Brush`. -/
structure Brush where
  name : List Nat
  color : Vec4
  shininess : Nat
  blend : Nat
  fx : Nat
  texture_id : List Nat
  deriving DecidableEq, Repr

/-- lib.rs `Vertice`. -/
structure Vertice where
  position : Vec3
  normal : Vec3
  color : Vec4
  tex_coords : Vec2
  deriving DecidableEq, Repr

/-- lib.rs `Verts` (a vertex block). -/
structure Verts where
  flags : Nat
  tex_coord_sets : Nat
  tex_coord_set_size : Nat
  vertices : List Vertice
  deriving DecidableEq, Repr

/-- lib.rs `Tris` (a triangle block). -/
structure Tris where
  brush_id : Nat
  indices : List (Nat × Nat × Nat)
  deriving DecidableEq, Repr

/-- lib.rs `Mesh`. -/
structure Mesh where
  brush_id : Nat
  vertices : Verts
  triangles : List Tris
  deriving DecidableEq, Repr

/-- lib.rs `Bone`. -/
structure Bone where
  vertex_id : Nat
  weight : Nat
  deriving DecidableEq, Repr

/-- lib.rs `Key`. -/
structure Key where
  frame : Nat
  position : Vec3
  scale : Vec3
  rotation : Vec4
  deriving DecidableEq, Repr

/-- lib.rs `Animation`. -/
structure Animation where
  flags : Nat
  frames : Nat
  fps : Nat
  deriving DecidableEq, Repr

/-- lib.rs `Sequence`. -/
structure Sequence where
  name : List Nat
  something : Nat
  something2 : Nat
  something3 : Nat
  deriving DecidableEq, Repr

/-- lib.rs `Node`; recursive through `children`, so an inductive type with
explicit accessors below. -/
inductive Node where
  | mk : List Nat → Vec3 → Vec3 → Vec4 → Mesh → List Bone → Nat → List Key →
      List Node → Animation → List Sequence → Node

def Node.name : Node → List Nat
  | .mk v _ _ _ _ _ _ _ _ _ _ => v

def Node.position : Node → Vec3
  | .mk _ v _ _ _ _ _ _ _ _ _ => v

def Node.scale : Node → Vec3
  | .mk _ _ v _ _ _ _ _ _ _ _ => v

def Node.rotation : Node → Vec4
  | .mk _ _ _ v _ _ _ _ _ _ _ => v

def Node.mesh : Node → Mesh
  | .mk _ _ _ _ v _ _ _ _ _ _ => v

def Node.bones : Node → List Bone
  | .mk _ _ _ _ _ v _ _ _ _ _ => v

def Node.key_flags : Node → Nat
  | .mk _ _ _ _ _ _ v _ _ _ _ => v

def Node.keys : Node → List Key
  | .mk _ _ _ _ _ _ _ v _ _ _ => v

def Node.children : Node → List Node
  | .mk _ _ _ _ _ _ _ _ v _ _ => v

def Node.animation : Node → Animation
  | .mk _ _ _ _ _ _ _ _ _ v _ => v

def Node.sequences : Node → List Sequence
  | .mk _ _ _ _ _ _ _ _ _ _ v => v

/-- `mesh = Mesh::read(..)` assignment in the `Node::read` loop. -/
def Node.setMesh : Node → Mesh → Node
  | .mk a b c d _ f g h i j k, m => .mk a b c d m f g h i j k

/-- `bones = Self::read_bones(..)` assignment. -/
def Node.setBones : Node → List Bone → Node
  | .mk a b c d e _ g h i j k, v => .mk a b c d e v g h i j k

/-- `key_flags = ..; keys = Self::read_keys(..)` assignments. -/
def Node.setKeys : Node → Nat → List Key → Node
  | .mk a b c d e f _ _ i j k, kf, ks => .mk a b c d e f kf ks i j k

/-- `children.push(Node::read(..))`. -/
def Node.addChild : Node → Node → Node
  | .mk a b c d e f g h i j k, ch => .mk a b c d e f g h (i ++ [ch]) j k

/-- `animation = Animation::read(..)` assignment. -/
def Node.setAnimation : Node → Animation → Node
  | .mk a b c d e f g h i _ k, an => .mk a b c d e f g h i an k

/-- `sequences.push(Sequence::read(..))`. -/
def Node.addSequence : Node → Sequence → Node
  | .mk a b c d e f g h i j k, s => .mk a b c d e f g h i j (k ++ [s])

/-- `Verts::default()`. -/
def Verts.default : Verts := ⟨0, 0, 0, []⟩

/-- `Mesh::default()`. -/
def Mesh.default : Mesh := ⟨0, Verts.default, []⟩

/-- `Animation::default()`. -/
def Animation.default : Animation := ⟨0, 0, 0⟩

/-- `Node::default()`: empty name, zero transform, default mesh and
animation, no bones, keys, children or sequences. -/
def Node.default : Node :=
  .mk [] (0, 0, 0) (0, 0, 0) (0, 0, 0, 0) Mesh.default [] 0 [] []
    Animation.default []

/-- lib.rs `B3D` (the decoded document). -/
structure B3D where
  version : Nat
  textures : List Texture
  brushes : List Brush
  node : Node

/-- `Texture::read`. -/
def Texture.read (buf : List Nat) (pos : Nat) : Except DErr (Texture × Nat) :=
  rbind (readNTString buf pos) fun file p1 =>
  rbind (readU32 buf p1) fun flags p2 =>
  rbind (readU32 buf p2) fun blend p3 =>
  rbind (readF32x2 buf p3) fun position p4 =>
  rbind (readF32x2 buf p4) fun scale p5 =>
  rbind (readF32 buf p5) fun rotation p6 =>
  .ok ({ file := file, flags := flags, blend := blend, position := position,
         scale := scale, rotation := rotation }, p6)

/-- The `for _ in 0..n_texs` loop of `Brush::read`. -/
def readU32List : Nat → List Nat → Nat → Except DErr (List Nat × Nat)
  | 0, _, pos => .ok ([], pos)
  | n + 1, buf, pos =>
    rbind (readU32 buf pos) fun v p =>
    rbind (readU32List n buf p) fun vs q =>
    .ok (v :: vs, q)

/-- `Brush::read`, given the document-wide `n_texs` count. -/
def Brush.read (buf : List Nat) (pos : Nat) (nTexs : Nat) :
    Except DErr (Brush × Nat) :=
  rbind (readNTString buf pos) fun name p1 =>
  rbind (readF32x4 buf p1) fun color p2 =>
  rbind (readF32 buf p2) fun shininess p3 =>
  rbind (readU32 buf p3) fun blend p4 =>
  rbind (readU32 buf p4) fun fx p5 =>
  rbind (readU32List nTexs buf p5) fun ids p6 =>
  .ok ({ name := name, color := color, shininess := shininess, blend := blend,
         fx := fx, texture_id := ids }, p6)

/-- The `while eof(data, next)?` loop of `Verts::read`: one vertex record per
iteration; normal read only when flag bit 0 is set, color only when flag bit 1
is set, the absent fields keeping their `[0.0; _]` defaults. -/
def vertsLoop : Nat → List Nat → Nat → Nat → Nat → Except DErr (List Vertice × Nat)
  | 0, _, _, _, _ => .error .outOfFuel
  | fuel + 1, buf, pos, next, flags =>
    if pos < next then
      rbind (readF32x3 buf pos) fun position p1 =>
      rbind (if flags &&& 1 ≠ 0 then readF32x3 buf p1
             else .ok ((0, 0, 0), p1)) fun normal p2 =>
      rbind (if flags &&& 2 ≠ 0 then readF32x4 buf p2
             else .ok ((0, 0, 0, 0), p2)) fun color p3 =>
      rbind (readF32x2 buf p3) fun tex p4 =>
      rbind (vertsLoop fuel buf p4 next flags) fun rest q =>
      .ok ({ position := position, normal := normal, color := color,
             tex_coords := tex } :: rest, q)
    else .ok ([], pos)

/-- `Verts::read`: flags, tex_coord_sets, tex_coord_set_size, then the vertex
loop bounded by the chunk end `next`. -/
def Verts.read (fuel : Nat) (buf : List Nat) (pos next : Nat) :
    Except DErr (Verts × Nat) :=
  rbind (readU32 buf pos) fun flags p1 =>
  rbind (readU32 buf p1) fun tcs p2 =>
  rbind (readU32 buf p2) fun tcss p3 =>
  rbind (vertsLoop fuel buf p3 next flags) fun vs q =>
  .ok ({ flags := flags, tex_coord_sets := tcs, tex_coord_set_size := tcss,
         vertices := vs }, q)

/-- The `while eof(data, next)?` loop of `Tris::read`. -/
def trisLoop : Nat → List Nat → Nat → Nat → Except DErr (List (Nat × Nat × Nat) × Nat)
  | 0, _, _, _ => .error .outOfFuel
  | fuel + 1, buf, pos, next =>
    if pos < next then
      rbind (readU32x3 buf pos) fun face p =>
      rbind (trisLoop fuel buf p next) fun rest q =>
      .ok (face :: rest, q)
    else .ok ([], pos)

/-- `Tris::read`: brush_id, then the face loop bounded by the chunk end. -/
def Tris.read (fuel : Nat) (buf : List Nat) (pos next : Nat) :
    Except DErr (Tris × Nat) :=
  rbind (readU32 buf pos) fun bid p =>
  rbind (trisLoop fuel buf p next) fun faces q =>
  .ok ({ brush_id := bid, indices := faces }, q)

/-- The `while eof(data, next)?` loop of `Mesh::read`: each iteration reads a
chunk header and decodes its body as a triangle block, whatever the tag. -/
def meshLoop : Nat → List Nat → Nat → Nat → Except DErr (List Tris × Nat)
  | 0, _, _, _ => .error .outOfFuel
  | fuel + 1, buf, pos, next =>
    if pos < next then
      rbind (Chunk.read buf pos) fun triChunk p =>
      rbind (Tris.read fuel buf p triChunk.next) fun t q =>
      rbind (meshLoop fuel buf q next) fun rest r =>
      .ok (t :: rest, r)
    else .ok ([], pos)

/-- `Mesh::read`: brush_id, one chunk header whose body is decoded as the
vertex block (the tag is never examined), then the triangle-block loop. -/
def Mesh.read (fuel : Nat) (buf : List Nat) (pos next : Nat) :
    Except DErr (Mesh × Nat) :=
  rbind (readU32 buf pos) fun bid p1 =>
  rbind (Chunk.read buf p1) fun vertChunk p2 =>
  rbind (Verts.read fuel buf p2 vertChunk.next) fun vs p3 =>
  rbind (meshLoop fuel buf p3 next) fun ts q =>
  .ok ({ brush_id := bid, vertices := vs, triangles := ts }, q)

/-- `Bone::read`. -/
def Bone.read (buf : List Nat) (pos : Nat) : Except DErr (Bone × Nat) :=
  rbind (readU32 buf pos) fun vid p1 =>
  rbind (readF32 buf p1) fun w p2 =>
  .ok ({ vertex_id := vid, weight := w }, p2)

/-- `Node::read_bones`: bone records until the chunk end. -/
def read_bones : Nat → List Nat → Nat → Nat → Except DErr (List Bone × Nat)
  | 0, _, _, _ => .error .outOfFuel
  | fuel + 1, buf, pos, next =>
    if pos < next then
      rbind (Bone.read buf pos) fun b p =>
      rbind (read_bones fuel buf p next) fun rest q =>
      .ok (b :: rest, q)
    else .ok ([], pos)

/-- `Key::read`: frame, then position/scale/rotation gated by flag bits
0/1/2, absent fields keeping their zero defaults. -/
def Key.read (buf : List Nat) (pos : Nat) (flags : Nat) :
    Except DErr (Key × Nat) :=
  rbind (readU32 buf pos) fun frame p1 =>
  rbind (if flags &&& 1 ≠ 0 then readF32x3 buf p1
         else .ok ((0, 0, 0), p1)) fun position p2 =>
  rbind (if flags &&& 2 ≠ 0 then readF32x3 buf p2
         else .ok ((0, 0, 0), p2)) fun scale p3 =>
  rbind (if flags &&& 4 ≠ 0 then readF32x4 buf p3
         else .ok ((0, 0, 0, 0), p3)) fun rotation p4 =>
  .ok ({ frame := frame, position := position, scale := scale,
         rotation := rotation }, p4)

/-- `Node::read_keys`: key records (all using the same flags) until the chunk
end. -/
def read_keys : Nat → List Nat → Nat → Nat → Nat → Except DErr (List Key × Nat)
  | 0, _, _, _, _ => .error .outOfFuel
  | fuel + 1, buf, pos, next, flags =>
    if pos < next then
      rbind (Key.read buf pos flags) fun k p =>
      rbind (read_keys fuel buf p next flags) fun rest q =>
      .ok (k :: rest, q)
    else .ok ([], pos)

/-- `Animation::read`; its `_next` parameter is ignored by the source. -/
def Animation.read (buf : List Nat) (pos : Nat) (_next : Nat) :
    Except DErr (Animation × Nat) :=
  rbind (readU32 buf pos) fun flags p1 =>
  rbind (readU32 buf p1) fun frames p2 =>
  rbind (readF32 buf p2) fun fps p3 =>
  .ok ({ flags := flags, frames := frames, fps := fps }, p3)

/-- `Sequence::read`; its `_next` parameter is ignored by the source. -/
def Sequence.read (buf : List Nat) (pos : Nat) (_next : Nat) :
    Except DErr (Sequence × Nat) :=
  rbind (readNTString buf pos) fun name p1 =>
  rbind (readU32 buf p1) fun s1 p2 =>
  rbind (readU32 buf p2) fun s2 p3 =>
  rbind (readU32 buf p3) fun s3 p4 =>
  .ok ({ name := name, something := s1, something2 := s2,
         something3 := s3 }, p4)

/-- The fixed (not chunk-wrapped) fields at the start of a node's chunk body
in `Node::read`: name, position, scale, rotation. -/
def nodeFields (buf : List Nat) (pos : Nat) :
    Except DErr ((List Nat × Vec3 × Vec3 × Vec4) × Nat) :=
  rbind (readNTString buf pos) fun name p1 =>
  rbind (readF32x3 buf p1) fun position p2 =>
  rbind (readF32x3 buf p2) fun scale p3 =>
  rbind (readF32x4 buf p3) fun rotation p4 =>
  .ok ((name, position, scale, rotation), p4)

/-- The node assembled from its fixed fields, all chunk-driven parts still at
their defaults (the `let mut` initialisers of `Node::read`). -/
def Node.initFrom (nf : List Nat × Vec3 × Vec3 × Vec4) : Node :=
  .mk nf.1 nf.2.1 nf.2.2.1 nf.2.2.2 Mesh.default [] 0 [] []
    Animation.default []

/-- The `while eof(data, next)?` dispatch loop of `Node::read`, threading the
node under construction.  The "NODE" case inlines `Node::read` for the child
(fixed fields, then the child's own loop) because the Rust functions are
mutually recursive; `Node.read` below is exactly this composition. -/
def nodeLoop : Nat → List Nat → Nat → Nat → Node → Except DErr (Node × Nat)
  | 0, _, _, _, _ => .error .outOfFuel
  | fuel + 1, buf, pos, next, n =>
    if pos < next then
      rbind (Chunk.read buf pos) fun chunk p =>
      if chunk.tag = tMESH then
        rbind (Mesh.read fuel buf p chunk.next) fun m q =>
        nodeLoop fuel buf q next (n.setMesh m)
      else if chunk.tag = tBONE then
        rbind (read_bones fuel buf p chunk.next) fun bs q =>
        nodeLoop fuel buf q next (n.setBones bs)
      else if chunk.tag = tKEYS then
        rbind (readU32 buf p) fun kf p1 =>
        rbind (read_keys fuel buf p1 chunk.next kf) fun ks q =>
        nodeLoop fuel buf q next (n.setKeys kf ks)
      else if chunk.tag = tNODE then
        rbind (nodeFields buf p) fun nf p1 =>
        rbind (nodeLoop fuel buf p1 chunk.next (Node.initFrom nf)) fun child q =>
        nodeLoop fuel buf q next (n.addChild child)
      else if chunk.tag = tANIM then
        rbind (Animation.read buf p chunk.next) fun a q =>
        nodeLoop fuel buf q next (n.setAnimation a)
      else if chunk.tag = tSEQS then
        rbind (Sequence.read buf p chunk.next) fun s q =>
        nodeLoop fuel buf q next (n.addSequence s)
      else .error (.invalidChunk chunk)
    else .ok (n, pos)

/-- `Node::read`: fixed fields, then the dispatch loop bounded by the node's
chunk end. -/
def Node.read (fuel : Nat) (buf : List Nat) (pos next : Nat) :
    Except DErr (Node × Nat) :=
  rbind (nodeFields buf pos) fun nf p =>
  nodeLoop fuel buf p next (Node.initFrom nf)

/-- `B3D::read_textures`: texture records until the chunk end. -/
def read_textures : Nat → List Nat → Nat → Nat → Except DErr (List Texture × Nat)
  | 0, _, _, _ => .error .outOfFuel
  | fuel + 1, buf, pos, next =>
    if pos < next then
      rbind (Texture.read buf pos) fun t p =>
      rbind (read_textures fuel buf p next) fun rest q =>
      .ok (t :: rest, q)
    else .ok ([], pos)

/-- The `while eof(data, next)?` loop of `B3D::read_brushes`, after `n_texs`
has been read. -/
def brushesLoop : Nat → List Nat → Nat → Nat → Nat → Except DErr (List Brush × Nat)
  | 0, _, _, _, _ => .error .outOfFuel
  | fuel + 1, buf, pos, next, nTexs =>
    if pos < next then
      rbind (Brush.read buf pos nTexs) fun b p =>
      rbind (brushesLoop fuel buf p next nTexs) fun rest q =>
      .ok (b :: rest, q)
    else .ok ([], pos)

/-- `B3D::read_brushes`: one u32 texture-per-brush count, then brush records
until the chunk end. -/
def read_brushes (fuel : Nat) (buf : List Nat) (pos next : Nat) :
    Except DErr (List Brush × Nat) :=
  rbind (readU32 buf pos) fun nTexs p =>
  brushesLoop fuel buf p next nTexs

/-- The top-level `while eof(&mut cursor, main_chunk.next)?` dispatch loop of
`B3D::read`, threading the running texture list, brush list and root node
(each "TEXS"/"BRUS"/"NODE" chunk replaces the corresponding component). -/
def topLoop : Nat → List Nat → Nat → Nat → List Texture → List Brush → Node →
    Except DErr ((List Texture × List Brush × Node) × Nat)
  | 0, _, _, _, _, _, _ => .error .outOfFuel
  | fuel + 1, buf, pos, next, ts, bs, nd =>
    if pos < next then
      rbind (Chunk.read buf pos) fun chunk p =>
      if chunk.tag = tTEXS then
        rbind (read_textures fuel buf p chunk.next) fun ts1 q =>
        topLoop fuel buf q next ts1 bs nd
      else if chunk.tag = tBRUS then
        rbind (read_brushes fuel buf p chunk.next) fun bs1 q =>
        topLoop fuel buf q next ts bs1 nd
      else if chunk.tag = tNODE then
        rbind (Node.read fuel buf p chunk.next) fun nd1 q =>
        topLoop fuel buf q next ts bs nd1
      else .error (.invalidChunk chunk)
    else .ok ((ts, bs, nd), pos)

/-- `B3D::read`: outer chunk header, "BB3D" tag check, version field, then
the top-level dispatch loop.  The fuel `buf.length + 1` strictly exceeds what
any run can consume. -/
def B3D.read (buf : List Nat) : Except DErr B3D :=
  match Chunk.read buf 0 with
  | .error e => .error e
  | .ok (main, p) =>
    if main.tag = tBB3D then
      match readU32 buf p with
      | .error e => .error e
      | .ok (version, p1) =>
        match topLoop (buf.length + 1) buf p1 main.next [] [] Node.default with
        | .error e => .error e
        | .ok ((ts, bs, nd), _) =>
          .ok { version := version, textures := ts, brushes := bs, node := nd }
    else .error (.invalidChunk main)

/-- An outcome that is not an invalid-chunk error: an I/O or text-decode
error, a panic, or the fuel artefact. -/
def DErr.plain : DErr → Prop
  | .invalidChunk _ => False
  | _ => True

/-- The chunk tags legal at the top level of `B3D::read`. -/
def topLegalP (t : List Nat) : Prop := t = tTEXS ∨ t = tBRUS ∨ t = tNODE

/-- The chunk tags legal inside a node in `Node::read`. -/
def nodeLegalP (t : List Nat) : Prop :=
  t = tMESH ∨ t = tBONE ∨ t = tKEYS ∨ t = tNODE ∨ t = tANIM ∨ t = tSEQS

/-- Observer on the top-level loop: the sequence of chunk headers the loop
reads and dispatches, with the same body decoders deciding where each chunk's
body ends.  `none` when the loop does not complete normally. -/
def topTrace : Nat → List Nat → Nat → Nat → Option (List Chunk)
  | 0, _, _, _ => none
  | fuel + 1, buf, pos, next =>
    if pos < next then
      match Chunk.read buf pos with
      | .error _ => none
      | .ok (chunk, p) =>
        match (if chunk.tag = tTEXS then
            rbind (read_textures fuel buf p chunk.next) fun _ q => .ok ((), q)
          else if chunk.tag = tBRUS then
            rbind (read_brushes fuel buf p chunk.next) fun _ q => .ok ((), q)
          else if chunk.tag = tNODE then
            rbind (Node.read fuel buf p chunk.next) fun _ q => .ok ((), q)
          else .error (.invalidChunk chunk) : Except DErr (Unit × Nat)) with
        | .error _ => none
        | .ok (_, q) =>
          match topTrace fuel buf q next with
          | none => none
          | some cs => some (chunk :: cs)
    else some []

/-- The top-level chunk headers processed by `B3D.read` on `buf`. -/
def B3D.topChunks (buf : List Nat) : Option (List Chunk) :=
  match Chunk.read buf 0 with
  | .error _ => none
  | .ok (main, p) =>
    if main.tag = tBB3D then
      match readU32 buf p with
      | .error _ => none
      | .ok (_, p1) => topTrace (buf.length + 1) buf p1 main.next
    else none

/-- The last chunk with tag "NODE" in a chunk list. -/
def lastNodeChunk : List Chunk → Option Chunk
  | [] => none
  | c :: cs =>
    match lastNodeChunk cs with
    | some c2 => some c2
    | none => if c.tag = tNODE then some c else none

/-- Overwrite the bytes of `buf` starting at index `i` with `t`. -/
def splice (buf : List Nat) (i : Nat) (t : List Nat) : List Nat :=
  buf.take i ++ t ++ buf.drop (i + t.length)

/-- Two buffers of equal length that agree on every byte from index `pos`
on. -/
def agreeFrom (pos : Nat) (b1 b2 : List Nat) : Prop :=
  b1.length = b2.length ∧ ∀ i, pos ≤ i → getByte b1 i = getByte b2 i

/-! Concrete buffers used by the counterexamples and witnesses. -/

/-- Little-endian 4-byte encoding of a 32-bit value. -/
def u32le (n : Nat) : List Nat :=
  [n % 256, n / 256 % 256, n / 65536 % 256, n / 16777216 % 256]

/-- A run of zero bytes. -/
def zeros (n : Nat) : List Nat := List.replicate n 0

/-- The f32 bit pattern of 1.0. -/
def fOne : Nat := 1065353216

/-- The scenario buffer of claim C8: a "BB3D" chunk (version 1) holding one
"TEXS" chunk with a single texture record (file "a.png", flags 0, blend 0,
offset [0,0], scale [1,1], rotation 0), one "BRUS" chunk (texture-per-brush
count 1, one all-zero brush referencing texture 0) and one "NODE" chunk
(name "Root", zero position, unit scale, rotation quaternion [1,0,0,0], no
sub-chunks). -/
def c8buf : List Nat :=
  tBB3D ++ u32le 144 ++ u32le 1 ++
  tTEXS ++ u32le 34 ++
    [97, 46, 112, 110, 103, 0] ++ u32le 0 ++ u32le 0 ++ zeros 8 ++
    u32le fOne ++ u32le fOne ++ u32le 0 ++
  tBRUS ++ u32le 37 ++ u32le 1 ++ [0] ++ zeros 28 ++ u32le 0 ++
  tNODE ++ u32le 45 ++ [82, 111, 111, 116, 0] ++ zeros 12 ++
    u32le fOne ++ u32le fOne ++ u32le fOne ++ u32le fOne ++ zeros 12

/-- The document that `B3D.read` produces on `c8buf`. -/
def c8doc : B3D :=
  { version := 1
    textures := [{ file := [97, 46, 112, 110, 103], flags := 0, blend := 0,
                   position := (0, 0), scale := (fOne, fOne), rotation := 0 }]
    brushes := [{ name := [], color := (0, 0, 0, 0), shininess := 0,
                  blend := 0, fx := 0, texture_id := [0] }]
    node := .mk [82, 111, 111, 116] (0, 0, 0) (fOne, fOne, fOne)
      (fOne, 0, 0, 0) Mesh.default [] 0 [] [] Animation.default [] }

/-- A well-formed buffer on which an inner vertex block overshoots its
declared chunk size: the "VRTS" chunk at offset 73 declares size 19 (end
offset 100), but its body holds the 12 fixed bytes plus one 20-byte vertex
record, so `Verts::read` stops at 113, not 100.  Every enclosing chunk size
is chosen so that the whole decode still succeeds. -/
def c1buf : List Nat :=
  tBB3D ++ u32le 105 ++ u32le 1 ++
  tNODE ++ u32le 93 ++ [0] ++ zeros 40 ++
  tMESH ++ u32le 44 ++ u32le 0 ++
  [86, 82, 84, 83] ++ u32le 19 ++ zeros 12 ++ zeros 20

/-- The all-zero vertex record. -/
def zeroVert : Vertice :=
  { position := (0, 0, 0), normal := (0, 0, 0), color := (0, 0, 0, 0),
    tex_coords := (0, 0) }

/-- The vertex block decoded from the "VRTS" chunk of `c1buf`. -/
def c1verts : Verts :=
  { flags := 0, tex_coord_sets := 0, tex_coord_set_size := 0,
    vertices := [zeroVert] }

/-- The document that `B3D.read` produces on `c1buf`. -/
def c1doc : B3D :=
  { version := 1
    textures := []
    brushes := []
    node := .mk [] (0, 0, 0) (0, 0, 0) (0, 0, 0, 0)
      { brush_id := 0, vertices := c1verts, triangles := [] }
      [] 0 [] [] Animation.default [] }

/-- A buffer whose single texture record has a name that is not valid UTF-8
(the byte 0xFF), inside an otherwise well-formed "TEXS" chunk. -/
def c3buf : List Nat :=
  tBB3D ++ u32le 42 ++ u32le 1 ++
  tTEXS ++ u32le 30 ++ [255, 0] ++ zeros 28

/-- A buffer with two top-level "NODE" chunks; the first node's position
field starts with the bit pattern 1, the second with 2. -/
def c7buf : List Nat :=
  tBB3D ++ u32le 102 ++ u32le 1 ++
  tNODE ++ u32le 41 ++ [0] ++ u32le 1 ++ zeros 36 ++
  tNODE ++ u32le 41 ++ [0] ++ u32le 2 ++ zeros 36

/-- The document that `B3D.read` produces on `c7buf`: the root is the node
decoded from the second (last) "NODE" chunk. -/
def c7doc : B3D :=
  { version := 1
    textures := []
    brushes := []
    node := .mk [] (2, 0, 0) (0, 0, 0) (0, 0, 0, 0) Mesh.default [] 0 [] []
      Animation.default [] }

/-- A well-formed buffer with no top-level chunks at all (outer body is just
the version field). -/
def c9buf : List Nat := tBB3D ++ u32le 4 ++ u32le 7

/-- The document that `B3D.read` produces on `c9buf`. -/
def c9doc : B3D :=
  { version := 7, textures := [], brushes := [], node := Node.default }

/-- A standalone vertex-block body: flags 0, two zero count fields, one
20-byte vertex record; block end offset 32. -/
def vbuf : List Nat := u32le 0 ++ u32le 0 ++ u32le 0 ++ zeros 20

/-- A standalone mesh body: brush id 0, one sub-chunk at offset 4 declaring
size 12 (end offset 24) whose body is an empty vertex block; mesh end offset
24.  The sub-chunk's 4 tag bytes (offsets 4..7) are placeholders meant to be
overwritten with `splice`. -/
def mbuf : List Nat := u32le 0 ++ zeros 4 ++ u32le 12 ++ zeros 12

/-- An 8-byte buffer whose outer chunk tag is "XXXX", not "BB3D". -/
def cbuf : List Nat := [88, 88, 88, 88] ++ u32le 0

/-! Basic facts about the sequencing combinator. -/

theorem rbind_ok_iff {α β : Type} {x : Except DErr (α × Nat)}
    {f : α → Nat → Except DErr (β × Nat)} {b : β} {q : Nat} :
    rbind x f = .ok (b, q) ↔ ∃ a p, x = .ok (a, p) ∧ f a p = .ok (b, q) := by
  cases x with
  | error e => simp [rbind]
  | ok v =>
    obtain ⟨a, p⟩ := v
    simp only [rbind, Except.ok.injEq, Prod.mk.injEq]
    constructor
    · intro h; exact ⟨a, p, ⟨rfl, rfl⟩, h⟩
    · rintro ⟨a1, p1, ⟨rfl, rfl⟩, h⟩; exact h

theorem rbind_error_iff {α β : Type} {x : Except DErr (α × Nat)}
    {f : α → Nat → Except DErr (β × Nat)} {e : DErr} :
    rbind x f = .error e ↔
      x = .error e ∨ ∃ a p, x = .ok (a, p) ∧ f a p = .error e := by
  cases x with
  | error e1 => simp [rbind]
  | ok v =>
    obtain ⟨a, p⟩ := v
    simp only [rbind]
    constructor
    · intro h; exact .inr ⟨a, p, rfl, h⟩
    · rintro (h | ⟨a1, p1, heq, h⟩)
      · cases h
      · cases heq; exact h

theorem rbind_plain {α β : Type} {x : Except DErr (α × Nat)}
    {f : α → Nat → Except DErr (β × Nat)} {e : DErr}
    (h : rbind x f = .error e)
    (hx : ∀ e1, x = .error e1 → DErr.plain e1)
    (hf : ∀ a p, f a p = .error e → DErr.plain e) : DErr.plain e := by
  rcases rbind_error_iff.mp h with h1 | ⟨a, p, _, hf1⟩
  · exact hx e h1
  · exact hf a p hf1

/-! Structure of successful and failed chunk-header reads. -/

theorem readU32_ok {buf : List Nat} {pos v q : Nat}
    (h : readU32 buf pos = .ok (v, q)) : q = pos + 4 ∧ pos + 4 ≤ buf.length := by
  unfold readU32 at h
  split at h
  · exact ⟨(by cases h; rfl), by assumption⟩
  · cases h

theorem readTag_ok {buf : List Nat} {pos q : Nat} {t : List Nat}
    (h : readTag buf pos = .ok (t, q)) :
    q = pos + 4 ∧ t = [getByte buf pos, getByte buf (pos + 1),
      getByte buf (pos + 2), getByte buf (pos + 3)] := by
  unfold readTag at h
  split at h
  · cases h; exact ⟨rfl, rfl⟩
  · cases h

theorem Chunk.read_ok {buf : List Nat} {pos q : Nat} {c : Chunk}
    (h : Chunk.read buf pos = .ok (c, q)) :
    c.position = pos ∧ q = pos + 8 ∧ c.next = pos + c.size + 8 := by
  unfold Chunk.read at h
  obtain ⟨t, p, ht, h⟩ := rbind_ok_iff.mp h
  obtain ⟨hp, -⟩ := readTag_ok ht
  subst hp
  split at h
  · obtain ⟨s, p2, hs, h⟩ := rbind_ok_iff.mp h
    obtain ⟨hp2, -⟩ := readU32_ok hs
    subst hp2
    cases h
    exact ⟨rfl, rfl, rfl⟩
  · cases h

/-! No reader outside the two tag-dispatch loops ever produces an
invalid-chunk error: their failures are I/O errors, text-decode errors,
panics or fuel exhaustion. -/

theorem readU32_plain {buf : List Nat} {pos : Nat} {e : DErr}
    (h : readU32 buf pos = .error e) : e.plain := by
  unfold readU32 at h
  split at h
  · cases h
  · cases h; trivial

theorem readF32_plain {buf : List Nat} {pos : Nat} {e : DErr}
    (h : readF32 buf pos = .error e) : e.plain := readU32_plain h

theorem readTag_plain {buf : List Nat} {pos : Nat} {e : DErr}
    (h : readTag buf pos = .error e) : e.plain := by
  unfold readTag at h
  split at h
  · cases h
  · cases h; trivial

theorem readF32x2_plain {buf : List Nat} {pos : Nat} {e : DErr}
    (h : readF32x2 buf pos = .error e) : e.plain := by
  unfold readF32x2 at h
  refine rbind_plain h (fun e1 h1 => readF32_plain h1) fun a p h1 => ?_
  refine rbind_plain h1 (fun e1 h2 => readF32_plain h2) fun b q h2 => ?_
  cases h2

theorem readF32x3_plain {buf : List Nat} {pos : Nat} {e : DErr}
    (h : readF32x3 buf pos = .error e) : e.plain := by
  unfold readF32x3 at h
  refine rbind_plain h (fun e1 h1 => readF32_plain h1) fun a p h1 => ?_
  refine rbind_plain h1 (fun e1 h2 => readF32_plain h2) fun b q h2 => ?_
  refine rbind_plain h2 (fun e1 h3 => readF32_plain h3) fun c r h3 => ?_
  cases h3

theorem readF32x4_plain {buf : List Nat} {pos : Nat} {e : DErr}
    (h : readF32x4 buf pos = .error e) : e.plain := by
  unfold readF32x4 at h
  refine rbind_plain h (fun e1 h1 => readF32_plain h1) fun a p h1 => ?_
  refine rbind_plain h1 (fun e1 h2 => readF32_plain h2) fun b q h2 => ?_
  refine rbind_plain h2 (fun e1 h3 => readF32_plain h3) fun c r h3 => ?_
  refine rbind_plain h3 (fun e1 h4 => readF32_plain h4) fun d s h4 => ?_
  cases h4

theorem readU32x3_plain {buf : List Nat} {pos : Nat} {e : DErr}
    (h : readU32x3 buf pos = .error e) : e.plain := by
  unfold readU32x3 at h
  refine rbind_plain h (fun e1 h1 => readU32_plain h1) fun a p h1 => ?_
  refine rbind_plain h1 (fun e1 h2 => readU32_plain h2) fun b q h2 => ?_
  refine rbind_plain h2 (fun e1 h3 => readU32_plain h3) fun c r h3 => ?_
  cases h3

theorem readNTString_plain {buf : List Nat} {pos : Nat} {e : DErr}
    (h : readNTString buf pos = .error e) : e.plain := by
  unfold readNTString at h
  split at h
  · cases h; trivial
  · simp only at h
    split at h
    · cases h
    · cases h; trivial

theorem chunk_read_plain {buf : List Nat} {pos : Nat} {e : DErr}
    (h : Chunk.read buf pos = .error e) : e.plain := by
  unfold Chunk.read at h
  refine rbind_plain h (fun e1 h1 => readTag_plain h1) fun t p h1 => ?_
  split at h1
  · refine rbind_plain h1 (fun e1 h2 => readU32_plain h2) fun s q h2 => ?_
    cases h2
  · cases h1; trivial

theorem readU32List_plain : ∀ (n : Nat) {buf : List Nat} {pos : Nat} {e : DErr},
    readU32List n buf pos = .error e → e.plain := by
  intro n
  induction n with
  | zero => intro buf pos e h; cases h
  | succ m ih =>
    intro buf pos e h
    unfold readU32List at h
    refine rbind_plain h (fun e1 h1 => readU32_plain h1) fun a p h1 => ?_
    refine rbind_plain h1 (fun e1 h2 => ih h2) fun b q h2 => ?_
    cases h2

theorem texture_read_plain {buf : List Nat} {pos : Nat} {e : DErr}
    (h : Texture.read buf pos = .error e) : e.plain := by
  unfold Texture.read at h
  refine rbind_plain h (fun e1 h1 => readNTString_plain h1) fun a p h1 => ?_
  refine rbind_plain h1 (fun e1 h2 => readU32_plain h2) fun b p2 h2 => ?_
  refine rbind_plain h2 (fun e1 h3 => readU32_plain h3) fun c p3 h3 => ?_
  refine rbind_plain h3 (fun e1 h4 => readF32x2_plain h4) fun d p4 h4 => ?_
  refine rbind_plain h4 (fun e1 h5 => readF32x2_plain h5) fun f p5 h5 => ?_
  refine rbind_plain h5 (fun e1 h6 => readF32_plain h6) fun g p6 h6 => ?_
  cases h6

theorem brush_read_plain {buf : List Nat} {pos nTexs : Nat} {e : DErr}
    (h : Brush.read buf pos nTexs = .error e) : e.plain := by
  unfold Brush.read at h
  refine rbind_plain h (fun e1 h1 => readNTString_plain h1) fun a p h1 => ?_
  refine rbind_plain h1 (fun e1 h2 => readF32x4_plain h2) fun b p2 h2 => ?_
  refine rbind_plain h2 (fun e1 h3 => readF32_plain h3) fun c p3 h3 => ?_
  refine rbind_plain h3 (fun e1 h4 => readU32_plain h4) fun d p4 h4 => ?_
  refine rbind_plain h4 (fun e1 h5 => readU32_plain h5) fun f p5 h5 => ?_
  refine rbind_plain h5 (fun e1 h6 => readU32List_plain _ h6) fun g p6 h6 => ?_
  cases h6

theorem bone_read_plain {buf : List Nat} {pos : Nat} {e : DErr}
    (h : Bone.read buf pos = .error e) : e.plain := by
  unfold Bone.read at h
  refine rbind_plain h (fun e1 h1 => readU32_plain h1) fun a p h1 => ?_
  refine rbind_plain h1 (fun e1 h2 => readF32_plain h2) fun b q h2 => ?_
  cases h2

theorem key_read_plain {buf : List Nat} {pos flags : Nat} {e : DErr}
    (h : Key.read buf pos flags = .error e) : e.plain := by
  unfold Key.read at h
  refine rbind_plain h (fun e1 h1 => readU32_plain h1) fun a p h1 => ?_
  refine rbind_plain h1 (fun e1 h2 => ?_) fun b p2 h2 => ?_
  · split at h2
    · exact readF32x3_plain h2
    · cases h2
  refine rbind_plain h2 (fun e1 h3 => ?_) fun c p3 h3 => ?_
  · split at h3
    · exact readF32x3_plain h3
    · cases h3
  refine rbind_plain h3 (fun e1 h4 => ?_) fun d p4 h4 => ?_
  · split at h4
    · exact readF32x4_plain h4
    · cases h4
  cases h4

theorem animation_read_plain {buf : List Nat} {pos nx : Nat} {e : DErr}
    (h : Animation.read buf pos nx = .error e) : e.plain := by
  unfold Animation.read at h
  refine rbind_plain h (fun e1 h1 => readU32_plain h1) fun a p h1 => ?_
  refine rbind_plain h1 (fun e1 h2 => readU32_plain h2) fun b p2 h2 => ?_
  refine rbind_plain h2 (fun e1 h3 => readF32_plain h3) fun c p3 h3 => ?_
  cases h3

theorem sequence_read_plain {buf : List Nat} {pos nx : Nat} {e : DErr}
    (h : Sequence.read buf pos nx = .error e) : e.plain := by
  unfold Sequence.read at h
  refine rbind_plain h (fun e1 h1 => readNTString_plain h1) fun a p h1 => ?_
  refine rbind_plain h1 (fun e1 h2 => readU32_plain h2) fun b p2 h2 => ?_
  refine rbind_plain h2 (fun e1 h3 => readU32_plain h3) fun c p3 h3 => ?_
  refine rbind_plain h3 (fun e1 h4 => readU32_plain h4) fun d p4 h4 => ?_
  cases h4

theorem nodeFields_plain {buf : List Nat} {pos : Nat} {e : DErr}
    (h : nodeFields buf pos = .error e) : e.plain := by
  unfold nodeFields at h
  refine rbind_plain h (fun e1 h1 => readNTString_plain h1) fun a p h1 => ?_
  refine rbind_plain h1 (fun e1 h2 => readF32x3_plain h2) fun b p2 h2 => ?_
  refine rbind_plain h2 (fun e1 h3 => readF32x3_plain h3) fun c p3 h3 => ?_
  refine rbind_plain h3 (fun e1 h4 => readF32x4_plain h4) fun d p4 h4 => ?_
  cases h4

theorem vertsLoop_plain : ∀ (fuel : Nat) {buf : List Nat} {pos next flags : Nat}
    {e : DErr}, vertsLoop fuel buf pos next flags = .error e → e.plain := by
  intro fuel
  induction fuel with
  | zero => intro buf pos next flags e h; cases h; trivial
  | succ m ih =>
    intro buf pos next flags e h
    unfold vertsLoop at h
    split at h
    · refine rbind_plain h (fun e1 h1 => readF32x3_plain h1) fun a p1 h1 => ?_
      refine rbind_plain h1 (fun e1 h2 => ?_) fun b p2 h2 => ?_
      · split at h2
        · exact readF32x3_plain h2
        · cases h2
      refine rbind_plain h2 (fun e1 h3 => ?_) fun c p3 h3 => ?_
      · split at h3
        · exact readF32x4_plain h3
        · cases h3
      refine rbind_plain h3 (fun e1 h4 => readF32x2_plain h4) fun d p4 h4 => ?_
      refine rbind_plain h4 (fun e1 h5 => ih h5) fun f p5 h5 => ?_
      cases h5
    · cases h

theorem verts_read_plain {fuel : Nat} {buf : List Nat} {pos next : Nat}
    {e : DErr} (h : Verts.read fuel buf pos next = .error e) : e.plain := by
  unfold Verts.read at h
  refine rbind_plain h (fun e1 h1 => readU32_plain h1) fun a p1 h1 => ?_
  refine rbind_plain h1 (fun e1 h2 => readU32_plain h2) fun b p2 h2 => ?_
  refine rbind_plain h2 (fun e1 h3 => readU32_plain h3) fun c p3 h3 => ?_
  refine rbind_plain h3 (fun e1 h4 => vertsLoop_plain _ h4) fun d p4 h4 => ?_
  cases h4

theorem trisLoop_plain : ∀ (fuel : Nat) {buf : List Nat} {pos next : Nat}
    {e : DErr}, trisLoop fuel buf pos next = .error e → e.plain := by
  intro fuel
  induction fuel with
  | zero => intro buf pos next e h; cases h; trivial
  | succ m ih =>
    intro buf pos next e h
    unfold trisLoop at h
    split at h
    · refine rbind_plain h (fun e1 h1 => readU32x3_plain h1) fun a p1 h1 => ?_
      refine rbind_plain h1 (fun e1 h2 => ih h2) fun b p2 h2 => ?_
      cases h2
    · cases h

theorem tris_read_plain {fuel : Nat} {buf : List Nat} {pos next : Nat}
    {e : DErr} (h : Tris.read fuel buf pos next = .error e) : e.plain := by
  unfold Tris.read at h
  refine rbind_plain h (fun e1 h1 => readU32_plain h1) fun a p1 h1 => ?_
  refine rbind_plain h1 (fun e1 h2 => trisLoop_plain _ h2) fun b p2 h2 => ?_
  cases h2

theorem meshLoop_plain : ∀ (fuel : Nat) {buf : List Nat} {pos next : Nat}
    {e : DErr}, meshLoop fuel buf pos next = .error e → e.plain := by
  intro fuel
  induction fuel with
  | zero => intro buf pos next e h; cases h; trivial
  | succ m ih =>
    intro buf pos next e h
    unfold meshLoop at h
    split at h
    · refine rbind_plain h (fun e1 h1 => chunk_read_plain h1) fun a p1 h1 => ?_
      refine rbind_plain h1 (fun e1 h2 => tris_read_plain h2) fun b p2 h2 => ?_
      refine rbind_plain h2 (fun e1 h3 => ih h3) fun c p3 h3 => ?_
      cases h3
    · cases h

theorem mesh_read_plain {fuel : Nat} {buf : List Nat} {pos next : Nat}
    {e : DErr} (h : Mesh.read fuel buf pos next = .error e) : e.plain := by
  unfold Mesh.read at h
  refine rbind_plain h (fun e1 h1 => readU32_plain h1) fun a p1 h1 => ?_
  refine rbind_plain h1 (fun e1 h2 => chunk_read_plain h2) fun b p2 h2 => ?_
  refine rbind_plain h2 (fun e1 h3 => verts_read_plain h3) fun c p3 h3 => ?_
  refine rbind_plain h3 (fun e1 h4 => meshLoop_plain _ h4) fun d p4 h4 => ?_
  cases h4

theorem read_bones_plain : ∀ (fuel : Nat) {buf : List Nat} {pos next : Nat}
    {e : DErr}, read_bones fuel buf pos next = .error e → e.plain := by
  intro fuel
  induction fuel with
  | zero => intro buf pos next e h; cases h; trivial
  | succ m ih =>
    intro buf pos next e h
    unfold read_bones at h
    split at h
    · refine rbind_plain h (fun e1 h1 => bone_read_plain h1) fun a p1 h1 => ?_
      refine rbind_plain h1 (fun e1 h2 => ih h2) fun b p2 h2 => ?_
      cases h2
    · cases h

theorem read_keys_plain : ∀ (fuel : Nat) {buf : List Nat} {pos next flags : Nat}
    {e : DErr}, read_keys fuel buf pos next flags = .error e → e.plain := by
  intro fuel
  induction fuel with
  | zero => intro buf pos next flags e h; cases h; trivial
  | succ m ih =>
    intro buf pos next flags e h
    unfold read_keys at h
    split at h
    · refine rbind_plain h (fun e1 h1 => key_read_plain h1) fun a p1 h1 => ?_
      refine rbind_plain h1 (fun e1 h2 => ih h2) fun b p2 h2 => ?_
      cases h2
    · cases h

theorem read_textures_plain : ∀ (fuel : Nat) {buf : List Nat} {pos next : Nat}
    {e : DErr}, read_textures fuel buf pos next = .error e → e.plain := by
  intro fuel
  induction fuel with
  | zero => intro buf pos next e h; cases h; trivial
  | succ m ih =>
    intro buf pos next e h
    unfold read_textures at h
    split at h
    · refine rbind_plain h (fun e1 h1 => texture_read_plain h1) fun a p1 h1 => ?_
      refine rbind_plain h1 (fun e1 h2 => ih h2) fun b p2 h2 => ?_
      cases h2
    · cases h

theorem brushesLoop_plain : ∀ (fuel : Nat) {buf : List Nat}
    {pos next nTexs : Nat} {e : DErr},
    brushesLoop fuel buf pos next nTexs = .error e → e.plain := by
  intro fuel
  induction fuel with
  | zero => intro buf pos next nTexs e h; cases h; trivial
  | succ m ih =>
    intro buf pos next nTexs e h
    unfold brushesLoop at h
    split at h
    · refine rbind_plain h (fun e1 h1 => brush_read_plain h1) fun a p1 h1 => ?_
      refine rbind_plain h1 (fun e1 h2 => ih h2) fun b p2 h2 => ?_
      cases h2
    · cases h

theorem read_brushes_plain {fuel : Nat} {buf : List Nat} {pos next : Nat}
    {e : DErr} (h : read_brushes fuel buf pos next = .error e) : e.plain := by
  unfold read_brushes at h
  refine rbind_plain h (fun e1 h1 => readU32_plain h1) fun a p1 h1 =>
    brushesLoop_plain _ h1

/-! Every `while eof(data, next)?` loop exits only once the cursor has
reached or passed the bound `next`, so each chunk-body decoder built on one
finishes at or past its chunk's computed end offset. -/

theorem vertsLoop_ge : ∀ (fuel : Nat) {buf : List Nat} {pos next flags : Nat}
    {vs : List Vertice} {q : Nat},
    vertsLoop fuel buf pos next flags = .ok (vs, q) → next ≤ q := by
  intro fuel
  induction fuel with
  | zero => intro buf pos next flags vs q h; cases h
  | succ m ih =>
    intro buf pos next flags vs q h
    unfold vertsLoop at h
    split at h
    · obtain ⟨a, p1, h1, h⟩ := rbind_ok_iff.mp h
      obtain ⟨b, p2, h2, h⟩ := rbind_ok_iff.mp h
      obtain ⟨c, p3, h3, h⟩ := rbind_ok_iff.mp h
      obtain ⟨d, p4, h4, h⟩ := rbind_ok_iff.mp h
      obtain ⟨f, p5, h5, h⟩ := rbind_ok_iff.mp h
      cases h
      exact ih h5
    · cases h; omega

theorem trisLoop_ge : ∀ (fuel : Nat) {buf : List Nat} {pos next : Nat}
    {vs : List (Nat × Nat × Nat)} {q : Nat},
    trisLoop fuel buf pos next = .ok (vs, q) → next ≤ q := by
  intro fuel
  induction fuel with
  | zero => intro buf pos next vs q h; cases h
  | succ m ih =>
    intro buf pos next vs q h
    unfold trisLoop at h
    split at h
    · obtain ⟨a, p1, h1, h⟩ := rbind_ok_iff.mp h
      obtain ⟨b, p2, h2, h⟩ := rbind_ok_iff.mp h
      cases h
      exact ih h2
    · cases h; omega

theorem meshLoop_ge : ∀ (fuel : Nat) {buf : List Nat} {pos next : Nat}
    {vs : List Tris} {q : Nat},
    meshLoop fuel buf pos next = .ok (vs, q) → next ≤ q := by
  intro fuel
  induction fuel with
  | zero => intro buf pos next vs q h; cases h
  | succ m ih =>
    intro buf pos next vs q h
    unfold meshLoop at h
    split at h
    · obtain ⟨a, p1, h1, h⟩ := rbind_ok_iff.mp h
      obtain ⟨b, p2, h2, h⟩ := rbind_ok_iff.mp h
      obtain ⟨c, p3, h3, h⟩ := rbind_ok_iff.mp h
      cases h
      exact ih h3
    · cases h; omega

theorem read_bones_ge : ∀ (fuel : Nat) {buf : List Nat} {pos next : Nat}
    {vs : List Bone} {q : Nat},
    read_bones fuel buf pos next = .ok (vs, q) → next ≤ q := by
  intro fuel
  induction fuel with
  | zero => intro buf pos next vs q h; cases h
  | succ m ih =>
    intro buf pos next vs q h
    unfold read_bones at h
    split at h
    · obtain ⟨a, p1, h1, h⟩ := rbind_ok_iff.mp h
      obtain ⟨b, p2, h2, h⟩ := rbind_ok_iff.mp h
      cases h
      exact ih h2
    · cases h; omega

theorem read_keys_ge : ∀ (fuel : Nat) {buf : List Nat} {pos next flags : Nat}
    {vs : List Key} {q : Nat},
    read_keys fuel buf pos next flags = .ok (vs, q) → next ≤ q := by
  intro fuel
  induction fuel with
  | zero => intro buf pos next flags vs q h; cases h
  | succ m ih =>
    intro buf pos next flags vs q h
    unfold read_keys at h
    split at h
    · obtain ⟨a, p1, h1, h⟩ := rbind_ok_iff.mp h
      obtain ⟨b, p2, h2, h⟩ := rbind_ok_iff.mp h
      cases h
      exact ih h2
    · cases h; omega

theorem read_textures_ge : ∀ (fuel : Nat) {buf : List Nat} {pos next : Nat}
    {vs : List Texture} {q : Nat},
    read_textures fuel buf pos next = .ok (vs, q) → next ≤ q := by
  intro fuel
  induction fuel with
  | zero => intro buf pos next vs q h; cases h
  | succ m ih =>
    intro buf pos next vs q h
    unfold read_textures at h
    split at h
    · obtain ⟨a, p1, h1, h⟩ := rbind_ok_iff.mp h
      obtain ⟨b, p2, h2, h⟩ := rbind_ok_iff.mp h
      cases h
      exact ih h2
    · cases h; omega

theorem brushesLoop_ge : ∀ (fuel : Nat) {buf : List Nat} {pos next nTexs : Nat}
    {vs : List Brush} {q : Nat},
    brushesLoop fuel buf pos next nTexs = .ok (vs, q) → next ≤ q := by
  intro fuel
  induction fuel with
  | zero => intro buf pos next nTexs vs q h; cases h
  | succ m ih =>
    intro buf pos next nTexs vs q h
    unfold brushesLoop at h
    split at h
    · obtain ⟨a, p1, h1, h⟩ := rbind_ok_iff.mp h
      obtain ⟨b, p2, h2, h⟩ := rbind_ok_iff.mp h
      cases h
      exact ih h2
    · cases h; omega

theorem nodeLoop_ge : ∀ (fuel : Nat) {buf : List Nat} {pos next : Nat}
    {n nd : Node} {q : Nat},
    nodeLoop fuel buf pos next n = .ok (nd, q) → next ≤ q := by
  intro fuel
  induction fuel with
  | zero => intro buf pos next n nd q h; cases h
  | succ m ih =>
    intro buf pos next n nd q h
    unfold nodeLoop at h
    split at h
    · obtain ⟨ch, p, hch, h⟩ := rbind_ok_iff.mp h
      split at h
      · obtain ⟨a, p1, h1, h⟩ := rbind_ok_iff.mp h
        exact ih h
      · split at h
        · obtain ⟨a, p1, h1, h⟩ := rbind_ok_iff.mp h
          exact ih h
        · split at h
          · obtain ⟨a, p1, h1, h⟩ := rbind_ok_iff.mp h
            obtain ⟨b, p2, h2, h⟩ := rbind_ok_iff.mp h
            exact ih h
          · split at h
            · obtain ⟨a, p1, h1, h⟩ := rbind_ok_iff.mp h
              obtain ⟨b, p2, h2, h⟩ := rbind_ok_iff.mp h
              exact ih h
            · split at h
              · obtain ⟨a, p1, h1, h⟩ := rbind_ok_iff.mp h
                exact ih h
              · split at h
                · obtain ⟨a, p1, h1, h⟩ := rbind_ok_iff.mp h
                  exact ih h
                · cases h
    · cases h; omega

theorem topLoop_ge : ∀ (fuel : Nat) {buf : List Nat} {pos next : Nat}
    {ts : List Texture} {bs : List Brush} {nd : Node}
    {out : List Texture × List Brush × Node} {q : Nat},
    topLoop fuel buf pos next ts bs nd = .ok (out, q) → next ≤ q := by
  intro fuel
  induction fuel with
  | zero => intro buf pos next ts bs nd out q h; cases h
  | succ m ih =>
    intro buf pos next ts bs nd out q h
    unfold topLoop at h
    split at h
    · obtain ⟨ch, p, hch, h⟩ := rbind_ok_iff.mp h
      split at h
      · obtain ⟨a, p1, h1, h⟩ := rbind_ok_iff.mp h
        exact ih h
      · split at h
        · obtain ⟨a, p1, h1, h⟩ := rbind_ok_iff.mp h
          exact ih h
        · split at h
          · obtain ⟨a, p1, h1, h⟩ := rbind_ok_iff.mp h
            exact ih h
          · cases h
    · cases h; omega

theorem verts_read_ge {fuel : Nat} {buf : List Nat} {pos next : Nat}
    {v : Verts} {q : Nat} (h : Verts.read fuel buf pos next = .ok (v, q)) :
    next ≤ q := by
  unfold Verts.read at h
  obtain ⟨a, p1, h1, h⟩ := rbind_ok_iff.mp h
  obtain ⟨b, p2, h2, h⟩ := rbind_ok_iff.mp h
  obtain ⟨c, p3, h3, h⟩ := rbind_ok_iff.mp h
  obtain ⟨d, p4, h4, h⟩ := rbind_ok_iff.mp h
  cases h
  exact vertsLoop_ge _ h4

theorem tris_read_ge {fuel : Nat} {buf : List Nat} {pos next : Nat}
    {v : Tris} {q : Nat} (h : Tris.read fuel buf pos next = .ok (v, q)) :
    next ≤ q := by
  unfold Tris.read at h
  obtain ⟨a, p1, h1, h⟩ := rbind_ok_iff.mp h
  obtain ⟨b, p2, h2, h⟩ := rbind_ok_iff.mp h
  cases h
  exact trisLoop_ge _ h2

theorem mesh_read_ge {fuel : Nat} {buf : List Nat} {pos next : Nat}
    {v : Mesh} {q : Nat} (h : Mesh.read fuel buf pos next = .ok (v, q)) :
    next ≤ q := by
  unfold Mesh.read at h
  obtain ⟨a, p1, h1, h⟩ := rbind_ok_iff.mp h
  obtain ⟨b, p2, h2, h⟩ := rbind_ok_iff.mp h
  obtain ⟨c, p3, h3, h⟩ := rbind_ok_iff.mp h
  obtain ⟨d, p4, h4, h⟩ := rbind_ok_iff.mp h
  cases h
  exact meshLoop_ge _ h4

theorem node_read_ge {fuel : Nat} {buf : List Nat} {pos next : Nat}
    {v : Node} {q : Nat} (h : Node.read fuel buf pos next = .ok (v, q)) :
    next ≤ q := by
  unfold Node.read at h
  obtain ⟨a, p1, h1, h⟩ := rbind_ok_iff.mp h
  exact nodeLoop_ge _ h

theorem read_brushes_ge {fuel : Nat} {buf : List Nat} {pos next : Nat}
    {v : List Brush} {q : Nat}
    (h : read_brushes fuel buf pos next = .ok (v, q)) : next ≤ q := by
  unfold read_brushes at h
  obtain ⟨a, p1, h1, h⟩ := rbind_ok_iff.mp h
  exact brushesLoop_ge _ h

/-! Brush texture-index lists: every brush decoded by a "BRUS" body carries
exactly the document-wide texture-per-brush count of indices. -/

theorem readU32List_length : ∀ (n : Nat) {buf : List Nat} {pos : Nat}
    {vs : List Nat} {q : Nat},
    readU32List n buf pos = .ok (vs, q) → vs.length = n := by
  intro n
  induction n with
  | zero => intro buf pos vs q h; cases h; rfl
  | succ m ih =>
    intro buf pos vs q h
    unfold readU32List at h
    obtain ⟨a, p1, h1, h⟩ := rbind_ok_iff.mp h
    obtain ⟨b, p2, h2, h⟩ := rbind_ok_iff.mp h
    cases h
    simp [ih h2]

theorem Brush.read_texlen {buf : List Nat} {pos nTexs : Nat} {b : Brush}
    {q : Nat} (h : Brush.read buf pos nTexs = .ok (b, q)) :
    b.texture_id.length = nTexs := by
  unfold Brush.read at h
  obtain ⟨a, p1, h1, h⟩ := rbind_ok_iff.mp h
  obtain ⟨c, p2, h2, h⟩ := rbind_ok_iff.mp h
  obtain ⟨d, p3, h3, h⟩ := rbind_ok_iff.mp h
  obtain ⟨f, p4, h4, h⟩ := rbind_ok_iff.mp h
  obtain ⟨g, p5, h5, h⟩ := rbind_ok_iff.mp h
  obtain ⟨ids, p6, h6, h⟩ := rbind_ok_iff.mp h
  cases h
  exact readU32List_length _ h6

theorem brushesLoop_texlen : ∀ (fuel : Nat) {buf : List Nat}
    {pos next nTexs : Nat} {bs : List Brush} {q : Nat},
    brushesLoop fuel buf pos next nTexs = .ok (bs, q) →
    ∀ b ∈ bs, b.texture_id.length = nTexs := by
  intro fuel
  induction fuel with
  | zero => intro buf pos next nTexs bs q h; cases h
  | succ m ih =>
    intro buf pos next nTexs bs q h
    unfold brushesLoop at h
    split at h
    · obtain ⟨a, p1, h1, h⟩ := rbind_ok_iff.mp h
      obtain ⟨b, p2, h2, h⟩ := rbind_ok_iff.mp h
      cases h
      intro x hx
      rcases List.mem_cons.mp hx with hx | hx
      · subst hx; exact Brush.read_texlen h1
      · exact ih h2 x hx
    · cases h
      intro x hx
      cases hx

theorem read_brushes_texlen {fuel : Nat} {buf : List Nat} {pos next : Nat}
    {bs : List Brush} {q : Nat}
    (h : read_brushes fuel buf pos next = .ok (bs, q)) :
    ∃ n p, readU32 buf pos = .ok (n, p) ∧
      ∀ b ∈ bs, b.texture_id.length = n := by
  unfold read_brushes at h
  obtain ⟨n, p1, h1, h⟩ := rbind_ok_iff.mp h
  exact ⟨n, p1, h1, brushesLoop_texlen _ h⟩

theorem topLoop_brushlen : ∀ (fuel : Nat) {buf : List Nat} {pos next : Nat}
    {ts : List Texture} {bs : List Brush} {nd : Node}
    {ts1 : List Texture} {bs1 : List Brush} {nd1 : Node} {q : Nat},
    topLoop fuel buf pos next ts bs nd = .ok ((ts1, bs1, nd1), q) →
    (∃ n, ∀ b ∈ bs, b.texture_id.length = n) →
    ∃ n, ∀ b ∈ bs1, b.texture_id.length = n := by
  intro fuel
  induction fuel with
  | zero => intro buf pos next ts bs nd ts1 bs1 nd1 q h; cases h
  | succ m ih =>
    intro buf pos next ts bs nd ts1 bs1 nd1 q h hbs
    unfold topLoop at h
    split at h
    · obtain ⟨ch, p, hch, h⟩ := rbind_ok_iff.mp h
      split at h
      · obtain ⟨a, p1, h1, h⟩ := rbind_ok_iff.mp h
        exact ih h hbs
      · split at h
        · obtain ⟨a, p1, h1, h⟩ := rbind_ok_iff.mp h
          obtain ⟨n, -, -, hn⟩ := read_brushes_texlen h1
          exact ih h ⟨n, hn⟩
        · split at h
          · obtain ⟨a, p1, h1, h⟩ := rbind_ok_iff.mp h
            exact ih h hbs
          · cases h
    · cases h
      exact hbs

/-! Vertex blocks: fields gated by a cleared flag bit keep their zero
defaults in every decoded vertex. -/

theorem vertsLoop_zero : ∀ (fuel : Nat) {buf : List Nat}
    {pos next flags : Nat} {vs : List Vertice} {q : Nat},
    vertsLoop fuel buf pos next flags = .ok (vs, q) →
    ∀ v ∈ vs, (flags &&& 1 = 0 → v.normal = (0, 0, 0)) ∧
      (flags &&& 2 = 0 → v.color = (0, 0, 0, 0)) := by
  intro fuel
  induction fuel with
  | zero => intro buf pos next flags vs q h; cases h
  | succ m ih =>
    intro buf pos next flags vs q h
    unfold vertsLoop at h
    split at h
    · obtain ⟨a, p1, h1, h⟩ := rbind_ok_iff.mp h
      obtain ⟨nv, p2, h2, h⟩ := rbind_ok_iff.mp h
      obtain ⟨cv, p3, h3, h⟩ := rbind_ok_iff.mp h
      obtain ⟨d, p4, h4, h⟩ := rbind_ok_iff.mp h
      obtain ⟨f, p5, h5, h⟩ := rbind_ok_iff.mp h
      cases h
      intro v hv
      rcases List.mem_cons.mp hv with hv | hv
      · subst hv
        constructor
        · intro hflag
          rw [if_neg (by simp [hflag])] at h2
          cases h2
          rfl
        · intro hflag
          rw [if_neg (by simp [hflag])] at h3
          cases h3
          rfl
      · exact ih h5 v hv
    · cases h
      intro v hv
      cases hv

theorem verts_read_zero {fuel : Nat} {buf : List Nat} {pos next : Nat}
    {v : Verts} {q : Nat} (h : Verts.read fuel buf pos next = .ok (v, q)) :
    ∀ x ∈ v.vertices, (v.flags &&& 1 = 0 → x.normal = (0, 0, 0)) ∧
      (v.flags &&& 2 = 0 → x.color = (0, 0, 0, 0)) := by
  unfold Verts.read at h
  obtain ⟨a, p1, h1, h⟩ := rbind_ok_iff.mp h
  obtain ⟨b, p2, h2, h⟩ := rbind_ok_iff.mp h
  obtain ⟨c, p3, h3, h⟩ := rbind_ok_iff.mp h
  obtain ⟨d, p4, h4, h⟩ := rbind_ok_iff.mp h
  cases h
  exact vertsLoop_zero _ h4

/-! Invalid-chunk errors: where they can come from and what they carry. -/

theorem nodeLoop_invalid : ∀ (fuel : Nat) {buf : List Nat} {pos next : Nat}
    {n : Node} {c : Chunk},
    nodeLoop fuel buf pos next n = .error (.invalidChunk c) →
    Chunk.read buf c.position = .ok (c, c.position + 8) ∧ ¬ nodeLegalP c.tag := by
  intro fuel
  induction fuel with
  | zero => intro buf pos next n c h; cases h
  | succ m ih =>
    intro buf pos next n c h
    unfold nodeLoop at h
    split at h
    · rcases rbind_error_iff.mp h with hch | ⟨ch, p, hch, h⟩
      · exact (chunk_read_plain hch).elim
      · split at h
        · rcases rbind_error_iff.mp h with hm | ⟨a, q, hm, h⟩
          · exact (mesh_read_plain hm).elim
          · exact ih h
        · split at h
          · rcases rbind_error_iff.mp h with hm | ⟨a, q, hm, h⟩
            · exact (read_bones_plain _ hm).elim
            · exact ih h
          · split at h
            · rcases rbind_error_iff.mp h with hm | ⟨a, q, hm, h⟩
              · exact (readU32_plain hm).elim
              · rcases rbind_error_iff.mp h with hk | ⟨b, q2, hk, h⟩
                · exact (read_keys_plain _ hk).elim
                · exact ih h
            · split at h
              · rcases rbind_error_iff.mp h with hm | ⟨a, q, hm, h⟩
                · exact (nodeFields_plain hm).elim
                · rcases rbind_error_iff.mp h with hk | ⟨b, q2, hk, h⟩
                  · exact ih hk
                  · exact ih h
              · split at h
                · rcases rbind_error_iff.mp h with hm | ⟨a, q, hm, h⟩
                  · exact (animation_read_plain hm).elim
                  · exact ih h
                · split at h
                  · rcases rbind_error_iff.mp h with hm | ⟨a, q, hm, h⟩
                    · exact (sequence_read_plain hm).elim
                    · exact ih h
                  · cases h
                    rename_i h1 h2 h3 h4 h5 h6
                    obtain ⟨hp, hq, -⟩ := Chunk.read_ok hch
                    constructor
                    · subst hq
                      rw [← hp] at hch
                      exact hch
                    · rintro (ht | ht | ht | ht | ht | ht) <;> contradiction
    · cases h

theorem node_read_invalid {fuel : Nat} {buf : List Nat} {pos next : Nat}
    {c : Chunk} (h : Node.read fuel buf pos next = .error (.invalidChunk c)) :
    Chunk.read buf c.position = .ok (c, c.position + 8) ∧ ¬ nodeLegalP c.tag := by
  unfold Node.read at h
  rcases rbind_error_iff.mp h with hm | ⟨a, q, hm, h⟩
  · exact (nodeFields_plain hm).elim
  · exact nodeLoop_invalid _ h

theorem topLoop_invalid : ∀ (fuel : Nat) {buf : List Nat} {pos next : Nat}
    {ts : List Texture} {bs : List Brush} {nd : Node} {c : Chunk},
    topLoop fuel buf pos next ts bs nd = .error (.invalidChunk c) →
    Chunk.read buf c.position = .ok (c, c.position + 8) ∧
      (¬ topLegalP c.tag ∨ ¬ nodeLegalP c.tag) := by
  intro fuel
  induction fuel with
  | zero => intro buf pos next ts bs nd c h; cases h
  | succ m ih =>
    intro buf pos next ts bs nd c h
    unfold topLoop at h
    split at h
    · rcases rbind_error_iff.mp h with hch | ⟨ch, p, hch, h⟩
      · exact (chunk_read_plain hch).elim
      · split at h
        · rcases rbind_error_iff.mp h with hm | ⟨a, q, hm, h⟩
          · exact (read_textures_plain _ hm).elim
          · exact ih h
        · split at h
          · rcases rbind_error_iff.mp h with hm | ⟨a, q, hm, h⟩
            · exact (read_brushes_plain hm).elim
            · exact ih h
          · split at h
            · rcases rbind_error_iff.mp h with hm | ⟨a, q, hm, h⟩
              · obtain ⟨hc, hn⟩ := node_read_invalid hm
                exact ⟨hc, Or.inr hn⟩
              · exact ih h
            · cases h
              rename_i h1 h2 h3
              obtain ⟨hp, hq, -⟩ := Chunk.read_ok hch
              constructor
              · subst hq
                rw [← hp] at hch
                exact hch
              · refine Or.inl ?_
                rintro (ht | ht | ht) <;> contradiction
    · cases h

theorem b3d_read_invalid {buf : List Nat} {c : Chunk}
    (h : B3D.read buf = .error (.invalidChunk c)) :
    Chunk.read buf c.position = .ok (c, c.position + 8) ∧
      ((c.position = 0 ∧ c.tag ≠ tBB3D) ∨ ¬ topLegalP c.tag ∨
        ¬ nodeLegalP c.tag) := by
  unfold B3D.read at h
  split at h
  · rename_i e hch
    cases h
    exact (chunk_read_plain hch).elim
  · rename_i main p hch
    split at h
    · split at h
      · rename_i e hu
        cases h
        exact (readU32_plain hu).elim
      · rename_i version p1 hu
        split at h
        · rename_i e ht
          cases h
          obtain ⟨hc, hleg⟩ := topLoop_invalid _ ht
          exact ⟨hc, Or.inr hleg⟩
        · cases h
    · cases h
      rename_i hne
      obtain ⟨hp, hq, -⟩ := Chunk.read_ok hch
      constructor
      · subst hq
        rw [← hp] at hch
        exact hch
      · exact Or.inl ⟨hp, hne⟩

theorem topLoop_illegal {fuel : Nat} {buf : List Nat} {pos next : Nat}
    {ts : List Texture} {bs : List Brush} {nd : Node} {c : Chunk} {p : Nat}
    (hlt : pos < next) (hch : Chunk.read buf pos = .ok (c, p))
    (hleg : ¬ topLegalP c.tag) :
    topLoop (fuel + 1) buf pos next ts bs nd = .error (.invalidChunk c) := by
  have h1 : c.tag ≠ tTEXS := fun he => hleg (Or.inl he)
  have h2 : c.tag ≠ tBRUS := fun he => hleg (Or.inr (Or.inl he))
  have h3 : c.tag ≠ tNODE := fun he => hleg (Or.inr (Or.inr he))
  unfold topLoop
  rw [if_pos hlt, hch]
  simp only [rbind]
  rw [if_neg h1, if_neg h2, if_neg h3]

theorem nodeLoop_illegal {fuel : Nat} {buf : List Nat} {pos next : Nat}
    {n : Node} {c : Chunk} {p : Nat}
    (hlt : pos < next) (hch : Chunk.read buf pos = .ok (c, p))
    (hleg : ¬ nodeLegalP c.tag) :
    nodeLoop (fuel + 1) buf pos next n = .error (.invalidChunk c) := by
  have h1 : c.tag ≠ tMESH := fun he => hleg (Or.inl he)
  have h2 : c.tag ≠ tBONE := fun he => hleg (Or.inr (Or.inl he))
  have h3 : c.tag ≠ tKEYS := fun he => hleg (Or.inr (Or.inr (Or.inl he)))
  have h4 : c.tag ≠ tNODE := fun he => hleg (Or.inr (Or.inr (Or.inr (Or.inl he))))
  have h5 : c.tag ≠ tANIM :=
    fun he => hleg (Or.inr (Or.inr (Or.inr (Or.inr (Or.inl he)))))
  have h6 : c.tag ≠ tSEQS :=
    fun he => hleg (Or.inr (Or.inr (Or.inr (Or.inr (Or.inr he)))))
  unfold nodeLoop
  rw [if_pos hlt, hch]
  simp only [rbind]
  rw [if_neg h1, if_neg h2, if_neg h3, if_neg h4, if_neg h5, if_neg h6]

theorem B3D.read_badMagic {buf : List Nat} {c : Chunk} {p : Nat}
    (hch : Chunk.read buf 0 = .ok (c, p)) (hne : c.tag ≠ tBB3D) :
    B3D.read buf = .error (.invalidChunk c) := by
  unfold B3D.read
  rw [hch]
  simp only [if_neg hne]

/-! The trace observer agrees with the top-level loop, and the final root
node is the decode of the last "NODE" chunk in the trace (or the incoming
accumulator when there is none). -/

theorem lastNodeChunk_cons_none {ch : Chunk} {cs : List Chunk}
    (h : lastNodeChunk cs = none) :
    lastNodeChunk (ch :: cs) = if ch.tag = tNODE then some ch else none := by
  unfold lastNodeChunk
  rw [h]

theorem lastNodeChunk_cons_some {ch c : Chunk} {cs : List Chunk}
    (h : lastNodeChunk cs = some c) : lastNodeChunk (ch :: cs) = some c := by
  unfold lastNodeChunk
  rw [h]

theorem topLoop_trace : ∀ (fuel : Nat) {buf : List Nat} {pos next : Nat}
    {ts : List Texture} {bs : List Brush} {nd : Node}
    {ts1 : List Texture} {bs1 : List Brush} {nd1 : Node} {q : Nat},
    topLoop fuel buf pos next ts bs nd = .ok ((ts1, bs1, nd1), q) →
    ∃ cs, topTrace fuel buf pos next = some cs ∧
      ((lastNodeChunk cs = none ∧ nd1 = nd) ∨
       (∃ c, lastNodeChunk cs = some c ∧
         ∃ f r, Node.read f buf (c.position + 8) c.next = .ok (nd1, r))) := by
  intro fuel
  induction fuel with
  | zero => intro buf pos next ts bs nd ts1 bs1 nd1 q h; cases h
  | succ m ih =>
    intro buf pos next ts bs nd ts1 bs1 nd1 q h
    unfold topLoop at h
    unfold topTrace
    by_cases hlt : pos < next
    · rw [if_pos hlt] at h
      rw [if_pos hlt]
      obtain ⟨ch, p, hch, h⟩ := rbind_ok_iff.mp h
      rw [hch]
      split at h
      · rename_i htag
        obtain ⟨ts2, q2, hts, h⟩ := rbind_ok_iff.mp h
        obtain ⟨cs, htr, hP⟩ := ih h
        refine ⟨ch :: cs, ?_, ?_⟩
        · simp only [if_pos htag, hts, rbind, htr]
        · rcases hP with ⟨hnone, hnd⟩ | ⟨c, hc, hex⟩
          · refine Or.inl ⟨?_, hnd⟩
            rw [lastNodeChunk_cons_none hnone, if_neg]
            rw [htag]
            decide
          · exact Or.inr ⟨c, lastNodeChunk_cons_some hc, hex⟩
      · split at h
        · rename_i hno htag
          obtain ⟨bs2, q2, hbs, h⟩ := rbind_ok_iff.mp h
          obtain ⟨cs, htr, hP⟩ := ih h
          refine ⟨ch :: cs, ?_, ?_⟩
          · simp only [if_neg hno, if_pos htag, hbs, rbind, htr]
          · rcases hP with ⟨hnone, hnd⟩ | ⟨c, hc, hex⟩
            · refine Or.inl ⟨?_, hnd⟩
              rw [lastNodeChunk_cons_none hnone, if_neg]
              rw [htag]
              decide
            · exact Or.inr ⟨c, lastNodeChunk_cons_some hc, hex⟩
        · split at h
          · rename_i hno1 hno2 htag
            obtain ⟨nd2, q2, hnd, h⟩ := rbind_ok_iff.mp h
            obtain ⟨cs, htr, hP⟩ := ih h
            refine ⟨ch :: cs, ?_, ?_⟩
            · simp only [if_neg hno1, if_neg hno2, if_pos htag, hnd, rbind, htr]
            · rcases hP with ⟨hnone, hnd1⟩ | ⟨c, hc, hex⟩
              · refine Or.inr ⟨ch, ?_, m, q2, ?_⟩
                · rw [lastNodeChunk_cons_none hnone, if_pos htag]
                · obtain ⟨hp, hq, -⟩ := Chunk.read_ok hch
                  subst hq
                  rw [hp, hnd1]
                  exact hnd
              · exact Or.inr ⟨c, lastNodeChunk_cons_some hc, hex⟩
          · cases h
    · rw [if_neg hlt] at h
      rw [if_neg hlt]
      cases h
      exact ⟨[], rfl, Or.inl ⟨rfl, rfl⟩⟩

theorem B3D.read_trace {buf : List Nat} {doc : B3D} (h : B3D.read buf = .ok doc) :
    ∃ cs, B3D.topChunks buf = some cs ∧
      ((lastNodeChunk cs = none ∧ doc.node = Node.default) ∨
       (∃ c, lastNodeChunk cs = some c ∧
         ∃ f r, Node.read f buf (c.position + 8) c.next = .ok (doc.node, r))) := by
  unfold B3D.read at h
  split at h
  · cases h
  · rename_i main p hch
    split at h
    · rename_i htag
      split at h
      · cases h
      · rename_i version p1 hu
        split at h
        · cases h
        · rename_i ts2 bs2 nd2 q2 ht
          cases h
          obtain ⟨cs, htr, hP⟩ := topLoop_trace _ ht
          refine ⟨cs, ?_, ?_⟩
          · unfold B3D.topChunks
            rw [hch]
            simp only [if_pos htag, hu, htr]
          · exact hP
    · cases h

theorem lastNodeChunk_of_noNode : ∀ (cs : List Chunk),
    (∀ c ∈ cs, c.tag ≠ tNODE) → lastNodeChunk cs = none := by
  intro cs
  induction cs with
  | nil => intro h; rfl
  | cons c cs ih =>
    intro h
    unfold lastNodeChunk
    rw [ih fun x hx => h x (List.mem_cons_of_mem c hx)]
    rw [if_neg (h c (List.mem_cons_self c cs))]

/-! Cursor-advance facts for the fixed-width readers and the mesh chain. -/

theorem readF32x2_pos {buf : List Nat} {pos : Nat} {v : Vec2} {q : Nat}
    (h : readF32x2 buf pos = .ok (v, q)) : q = pos + 8 := by
  unfold readF32x2 at h
  obtain ⟨a, p1, h1, h⟩ := rbind_ok_iff.mp h
  obtain ⟨b, p2, h2, h⟩ := rbind_ok_iff.mp h
  cases h
  obtain ⟨e1, -⟩ := readU32_ok h1
  obtain ⟨e2, -⟩ := readU32_ok h2
  omega

theorem readF32x3_pos {buf : List Nat} {pos : Nat} {v : Vec3} {q : Nat}
    (h : readF32x3 buf pos = .ok (v, q)) : q = pos + 12 := by
  unfold readF32x3 at h
  obtain ⟨a, p1, h1, h⟩ := rbind_ok_iff.mp h
  obtain ⟨b, p2, h2, h⟩ := rbind_ok_iff.mp h
  obtain ⟨c, p3, h3, h⟩ := rbind_ok_iff.mp h
  cases h
  obtain ⟨e1, -⟩ := readU32_ok h1
  obtain ⟨e2, -⟩ := readU32_ok h2
  obtain ⟨e3, -⟩ := readU32_ok h3
  omega

theorem readF32x4_pos {buf : List Nat} {pos : Nat} {v : Vec4} {q : Nat}
    (h : readF32x4 buf pos = .ok (v, q)) : q = pos + 16 := by
  unfold readF32x4 at h
  obtain ⟨a, p1, h1, h⟩ := rbind_ok_iff.mp h
  obtain ⟨b, p2, h2, h⟩ := rbind_ok_iff.mp h
  obtain ⟨c, p3, h3, h⟩ := rbind_ok_iff.mp h
  obtain ⟨d, p4, h4, h⟩ := rbind_ok_iff.mp h
  cases h
  obtain ⟨e1, -⟩ := readU32_ok h1
  obtain ⟨e2, -⟩ := readU32_ok h2
  obtain ⟨e3, -⟩ := readU32_ok h3
  obtain ⟨e4, -⟩ := readU32_ok h4
  omega

theorem readU32x3_pos {buf : List Nat} {pos : Nat} {v : Nat × Nat × Nat}
    {q : Nat} (h : readU32x3 buf pos = .ok (v, q)) : q = pos + 12 := by
  unfold readU32x3 at h
  obtain ⟨a, p1, h1, h⟩ := rbind_ok_iff.mp h
  obtain ⟨b, p2, h2, h⟩ := rbind_ok_iff.mp h
  obtain ⟨c, p3, h3, h⟩ := rbind_ok_iff.mp h
  cases h
  obtain ⟨e1, -⟩ := readU32_ok h1
  obtain ⟨e2, -⟩ := readU32_ok h2
  obtain ⟨e3, -⟩ := readU32_ok h3
  omega

theorem vertsLoop_pos : ∀ (fuel : Nat) {buf : List Nat} {pos next flags : Nat}
    {vs : List Vertice} {q : Nat},
    vertsLoop fuel buf pos next flags = .ok (vs, q) → pos ≤ q := by
  intro fuel
  induction fuel with
  | zero => intro buf pos next flags vs q h; cases h
  | succ m ih =>
    intro buf pos next flags vs q h
    unfold vertsLoop at h
    split at h
    · obtain ⟨a, p1, h1, h⟩ := rbind_ok_iff.mp h
      obtain ⟨b, p2, h2, h⟩ := rbind_ok_iff.mp h
      obtain ⟨c, p3, h3, h⟩ := rbind_ok_iff.mp h
      obtain ⟨d, p4, h4, h⟩ := rbind_ok_iff.mp h
      obtain ⟨f, p5, h5, h⟩ := rbind_ok_iff.mp h
      cases h
      have e1 := readF32x3_pos h1
      have e2 : p1 ≤ p2 := by
        split at h2
        · have := readF32x3_pos h2; omega
        · cases h2; omega
      have e3 : p2 ≤ p3 := by
        split at h3
        · have := readF32x4_pos h3; omega
        · cases h3; omega
      have e4 := readF32x2_pos h4
      have e5 := ih h5
      omega
    · cases h; omega

theorem trisLoop_pos : ∀ (fuel : Nat) {buf : List Nat} {pos next : Nat}
    {vs : List (Nat × Nat × Nat)} {q : Nat},
    trisLoop fuel buf pos next = .ok (vs, q) → pos ≤ q := by
  intro fuel
  induction fuel with
  | zero => intro buf pos next vs q h; cases h
  | succ m ih =>
    intro buf pos next vs q h
    unfold trisLoop at h
    split at h
    · obtain ⟨a, p1, h1, h⟩ := rbind_ok_iff.mp h
      obtain ⟨b, p2, h2, h⟩ := rbind_ok_iff.mp h
      cases h
      have e1 := readU32x3_pos h1
      have e2 := ih h2
      omega
    · cases h; omega

theorem verts_read_pos {fuel : Nat} {buf : List Nat} {pos next : Nat}
    {v : Verts} {q : Nat} (h : Verts.read fuel buf pos next = .ok (v, q)) :
    pos ≤ q := by
  unfold Verts.read at h
  obtain ⟨a, p1, h1, h⟩ := rbind_ok_iff.mp h
  obtain ⟨b, p2, h2, h⟩ := rbind_ok_iff.mp h
  obtain ⟨c, p3, h3, h⟩ := rbind_ok_iff.mp h
  obtain ⟨d, p4, h4, h⟩ := rbind_ok_iff.mp h
  cases h
  obtain ⟨e1, -⟩ := readU32_ok h1
  obtain ⟨e2, -⟩ := readU32_ok h2
  obtain ⟨e3, -⟩ := readU32_ok h3
  have e4 := vertsLoop_pos _ h4
  omega

theorem tris_read_pos {fuel : Nat} {buf : List Nat} {pos next : Nat}
    {v : Tris} {q : Nat} (h : Tris.read fuel buf pos next = .ok (v, q)) :
    pos ≤ q := by
  unfold Tris.read at h
  obtain ⟨a, p1, h1, h⟩ := rbind_ok_iff.mp h
  obtain ⟨b, p2, h2, h⟩ := rbind_ok_iff.mp h
  cases h
  obtain ⟨e1, -⟩ := readU32_ok h1
  have e2 := trisLoop_pos _ h2
  omega

/-! Locality: every reader in the mesh chain depends only on the buffer
length and the bytes at or after the cursor, so two equal-length buffers
agreeing from the cursor on decode identically. -/

theorem agreeFrom_mono {pos pos2 : Nat} {b1 b2 : List Nat}
    (h : agreeFrom pos b1 b2) (hle : pos ≤ pos2) : agreeFrom pos2 b1 b2 :=
  ⟨h.1, fun i hi => h.2 i (le_trans hle hi)⟩

theorem rbind_congr {α β : Type} {x1 x2 : Except DErr (α × Nat)}
    {f1 f2 : α → Nat → Except DErr (β × Nat)} (hx : x1 = x2)
    (hf : ∀ a p, x2 = .ok (a, p) → f1 a p = f2 a p) :
    rbind x1 f1 = rbind x2 f2 := by
  subst hx
  cases x1 with
  | error e => rfl
  | ok v =>
    obtain ⟨a, p⟩ := v
    exact hf a p rfl

theorem readU32_agree {pos : Nat} {b1 b2 : List Nat} (h : agreeFrom pos b1 b2) :
    readU32 b1 pos = readU32 b2 pos := by
  unfold readU32
  rw [h.1]
  by_cases hc : pos + 4 ≤ b2.length
  · rw [if_pos hc, if_pos hc, h.2 pos le_rfl, h.2 (pos + 1) (by omega),
      h.2 (pos + 2) (by omega), h.2 (pos + 3) (by omega)]
  · rw [if_neg hc, if_neg hc]

theorem readF32_agree {pos : Nat} {b1 b2 : List Nat} (h : agreeFrom pos b1 b2) :
    readF32 b1 pos = readF32 b2 pos := readU32_agree h

theorem readTag_agree {pos : Nat} {b1 b2 : List Nat} (h : agreeFrom pos b1 b2) :
    readTag b1 pos = readTag b2 pos := by
  unfold readTag
  rw [h.1]
  by_cases hc : pos + 4 ≤ b2.length
  · rw [if_pos hc, if_pos hc, h.2 pos le_rfl, h.2 (pos + 1) (by omega),
      h.2 (pos + 2) (by omega), h.2 (pos + 3) (by omega)]
  · rw [if_neg hc, if_neg hc]

theorem readF32x2_agree {pos : Nat} {b1 b2 : List Nat}
    (h : agreeFrom pos b1 b2) : readF32x2 b1 pos = readF32x2 b2 pos := by
  unfold readF32x2
  refine rbind_congr (readF32_agree h) fun a p hx => ?_
  obtain ⟨hp, -⟩ := readU32_ok hx
  subst hp
  exact rbind_congr (readF32_agree (agreeFrom_mono h (by omega)))
    fun b q hy => rfl

theorem readF32x3_agree {pos : Nat} {b1 b2 : List Nat}
    (h : agreeFrom pos b1 b2) : readF32x3 b1 pos = readF32x3 b2 pos := by
  unfold readF32x3
  refine rbind_congr (readF32_agree h) fun a p hx => ?_
  obtain ⟨hp, -⟩ := readU32_ok hx
  subst hp
  refine rbind_congr (readF32_agree (agreeFrom_mono h (by omega)))
    fun b q hy => ?_
  obtain ⟨hq, -⟩ := readU32_ok hy
  subst hq
  exact rbind_congr (readF32_agree (agreeFrom_mono h (by omega)))
    fun c r hz => rfl

theorem readF32x4_agree {pos : Nat} {b1 b2 : List Nat}
    (h : agreeFrom pos b1 b2) : readF32x4 b1 pos = readF32x4 b2 pos := by
  unfold readF32x4
  refine rbind_congr (readF32_agree h) fun a p hx => ?_
  obtain ⟨hp, -⟩ := readU32_ok hx
  subst hp
  refine rbind_congr (readF32_agree (agreeFrom_mono h (by omega)))
    fun b q hy => ?_
  obtain ⟨hq, -⟩ := readU32_ok hy
  subst hq
  refine rbind_congr (readF32_agree (agreeFrom_mono h (by omega)))
    fun c r hz => ?_
  obtain ⟨hr, -⟩ := readU32_ok hz
  subst hr
  exact rbind_congr (readF32_agree (agreeFrom_mono h (by omega)))
    fun d s hw => rfl

theorem readU32x3_agree {pos : Nat} {b1 b2 : List Nat}
    (h : agreeFrom pos b1 b2) : readU32x3 b1 pos = readU32x3 b2 pos := by
  unfold readU32x3
  refine rbind_congr (readU32_agree h) fun a p hx => ?_
  obtain ⟨hp, -⟩ := readU32_ok hx
  subst hp
  refine rbind_congr (readU32_agree (agreeFrom_mono h (by omega)))
    fun b q hy => ?_
  obtain ⟨hq, -⟩ := readU32_ok hy
  subst hq
  exact rbind_congr (readU32_agree (agreeFrom_mono h (by omega)))
    fun c r hz => rfl

theorem chunk_read_agree {pos : Nat} {b1 b2 : List Nat}
    (h : agreeFrom pos b1 b2) : Chunk.read b1 pos = Chunk.read b2 pos := by
  unfold Chunk.read
  refine rbind_congr (readTag_agree h) fun t p hx => ?_
  obtain ⟨hp, -⟩ := readTag_ok hx
  subst hp
  by_cases hv : validUtf8 t
  · rw [if_pos hv, if_pos hv]
    exact rbind_congr (readU32_agree (agreeFrom_mono h (by omega)))
      fun s q hy => rfl
  · rw [if_neg hv, if_neg hv]

theorem vertsLoop_agree : ∀ (fuel : Nat) {pos next flags : Nat}
    {b1 b2 : List Nat}, agreeFrom pos b1 b2 →
    vertsLoop fuel b1 pos next flags = vertsLoop fuel b2 pos next flags := by
  intro fuel
  induction fuel with
  | zero => intro pos next flags b1 b2 h; rfl
  | succ m ih =>
    intro pos next flags b1 b2 h
    unfold vertsLoop
    by_cases hlt : pos < next
    · rw [if_pos hlt, if_pos hlt]
      refine rbind_congr (readF32x3_agree h) fun a p1 hx => ?_
      have hp1 := readF32x3_pos hx
      subst hp1
      refine rbind_congr ?_ fun b p2 hy => ?_
      · by_cases hf : flags &&& 1 ≠ 0
        · rw [if_pos hf, if_pos hf]
          exact readF32x3_agree (agreeFrom_mono h (by omega))
        · rw [if_neg hf, if_neg hf]
      · have hp2 : pos + 12 ≤ p2 := by
          split at hy
          · have := readF32x3_pos hy; omega
          · cases hy; omega
        refine rbind_congr ?_ fun c p3 hz => ?_
        · by_cases hf : flags &&& 2 ≠ 0
          · rw [if_pos hf, if_pos hf]
            exact readF32x4_agree (agreeFrom_mono h (by omega))
          · rw [if_neg hf, if_neg hf]
        · have hp3 : p2 ≤ p3 := by
            split at hz
            · have := readF32x4_pos hz; omega
            · cases hz; omega
          refine rbind_congr (readF32x2_agree (agreeFrom_mono h (by omega)))
            fun d p4 hw => ?_
          have hp4 := readF32x2_pos hw
          subst hp4
          exact rbind_congr (ih (agreeFrom_mono h (by omega)))
            fun f p5 hv => rfl
    · rw [if_neg hlt, if_neg hlt]

theorem verts_read_agree {fuel : Nat} {pos next : Nat} {b1 b2 : List Nat}
    (h : agreeFrom pos b1 b2) :
    Verts.read fuel b1 pos next = Verts.read fuel b2 pos next := by
  unfold Verts.read
  refine rbind_congr (readU32_agree h) fun a p1 hx => ?_
  obtain ⟨hp1, -⟩ := readU32_ok hx
  subst hp1
  refine rbind_congr (readU32_agree (agreeFrom_mono h (by omega)))
    fun b p2 hy => ?_
  obtain ⟨hp2, -⟩ := readU32_ok hy
  subst hp2
  refine rbind_congr (readU32_agree (agreeFrom_mono h (by omega)))
    fun c p3 hz => ?_
  obtain ⟨hp3, -⟩ := readU32_ok hz
  subst hp3
  exact rbind_congr (vertsLoop_agree _ (agreeFrom_mono h (by omega)))
    fun d p4 hw => rfl

theorem trisLoop_agree : ∀ (fuel : Nat) {pos next : Nat} {b1 b2 : List Nat},
    agreeFrom pos b1 b2 →
    trisLoop fuel b1 pos next = trisLoop fuel b2 pos next := by
  intro fuel
  induction fuel with
  | zero => intro pos next b1 b2 h; rfl
  | succ m ih =>
    intro pos next b1 b2 h
    unfold trisLoop
    by_cases hlt : pos < next
    · rw [if_pos hlt, if_pos hlt]
      refine rbind_congr (readU32x3_agree h) fun a p1 hx => ?_
      have hp1 := readU32x3_pos hx
      subst hp1
      exact rbind_congr (ih (agreeFrom_mono h (by omega))) fun b p2 hy => rfl
    · rw [if_neg hlt, if_neg hlt]

theorem tris_read_agree {fuel : Nat} {pos next : Nat} {b1 b2 : List Nat}
    (h : agreeFrom pos b1 b2) :
    Tris.read fuel b1 pos next = Tris.read fuel b2 pos next := by
  unfold Tris.read
  refine rbind_congr (readU32_agree h) fun a p1 hx => ?_
  obtain ⟨hp1, -⟩ := readU32_ok hx
  subst hp1
  exact rbind_congr (trisLoop_agree _ (agreeFrom_mono h (by omega)))
    fun b p2 hy => rfl

theorem meshLoop_agree : ∀ (fuel : Nat) {pos next : Nat} {b1 b2 : List Nat},
    agreeFrom pos b1 b2 →
    meshLoop fuel b1 pos next = meshLoop fuel b2 pos next := by
  intro fuel
  induction fuel with
  | zero => intro pos next b1 b2 h; rfl
  | succ m ih =>
    intro pos next b1 b2 h
    unfold meshLoop
    by_cases hlt : pos < next
    · rw [if_pos hlt, if_pos hlt]
      refine rbind_congr (chunk_read_agree h) fun ch p1 hx => ?_
      obtain ⟨-, hp1, -⟩ := Chunk.read_ok hx
      subst hp1
      refine rbind_congr (tris_read_agree (agreeFrom_mono h (by omega)))
        fun t p2 hy => ?_
      have hp2 := tris_read_pos hy
      exact rbind_congr (ih (agreeFrom_mono h (by omega))) fun r p3 hz => rfl
    · rw [if_neg hlt, if_neg hlt]

/-! Byte-level facts about `splice`. -/

theorem getByte_append_lt {l1 l2 : List Nat} {j : Nat} (h : j < l1.length) :
    getByte (l1 ++ l2) j = getByte l1 j := by
  simp [getByte, List.getD_eq_getElem?_getD, List.getElem?_append_left h]

theorem getByte_append_ge {l1 l2 : List Nat} {j : Nat} (h : l1.length ≤ j) :
    getByte (l1 ++ l2) j = getByte l2 (j - l1.length) := by
  simp [getByte, List.getD_eq_getElem?_getD, List.getElem?_append_right h]

theorem splice_length {buf t : List Nat} {i : Nat}
    (h : i + t.length ≤ buf.length) : (splice buf i t).length = buf.length := by
  simp [splice]
  omega

theorem getByte_splice_lt {buf t : List Nat} {i j : Nat} (hij : j < i)
    (hle : i + t.length ≤ buf.length) :
    getByte (splice buf i t) j = getByte buf j := by
  unfold splice
  rw [List.append_assoc, getByte_append_lt (by simp; omega)]
  simp [getByte, List.getD_eq_getElem?_getD, List.getElem?_take, hij]

theorem getByte_splice_mid {buf t : List Nat} {i j : Nat} (hij : i ≤ j)
    (hjt : j < i + t.length) (hle : i + t.length ≤ buf.length) :
    getByte (splice buf i t) j = getByte t (j - i) := by
  unfold splice
  rw [List.append_assoc, getByte_append_ge (by simp; omega)]
  rw [getByte_append_lt (by simp; omega)]
  congr 1
  simp
  omega

theorem getByte_splice_ge {buf t : List Nat} {i j : Nat}
    (hij : i + t.length ≤ j) (hle : i + t.length ≤ buf.length) :
    getByte (splice buf i t) j = getByte buf j := by
  unfold splice
  rw [List.append_assoc, getByte_append_ge (by simp; omega)]
  rw [getByte_append_ge (by simp; omega)]
  simp [getByte, List.getD_eq_getElem?_getD]
  congr 2
  omega

theorem splice_agree {buf t1 t2 : List Nat} {i : Nat}
    (hlen : t1.length = t2.length) (hle : i + t1.length ≤ buf.length) :
    agreeFrom (i + t1.length) (splice buf i t1) (splice buf i t2) := by
  constructor
  · rw [splice_length hle, splice_length (by omega)]
  · intro j hj
    rw [getByte_splice_ge (by omega) hle,
      getByte_splice_ge (by omega) (by omega)]

theorem readU32_congr {pos : Nat} {b1 b2 : List Nat}
    (hlen : b1.length = b2.length)
    (hb : ∀ j, pos ≤ j → j < pos + 4 → getByte b1 j = getByte b2 j) :
    readU32 b1 pos = readU32 b2 pos := by
  unfold readU32
  rw [hlen]
  by_cases hc : pos + 4 ≤ b2.length
  · rw [if_pos hc, if_pos hc, hb pos le_rfl (by omega),
      hb (pos + 1) (by omega) (by omega), hb (pos + 2) (by omega) (by omega),
      hb (pos + 3) (by omega) (by omega)]
  · rw [if_neg hc, if_neg hc]

theorem readTag_splice {buf t : List Nat} {i : Nat} (ht : t.length = 4)
    (hle : i + 4 ≤ buf.length) :
    readTag (splice buf i t) i = .ok (t, i + 4) := by
  rcases t with _ | ⟨a, _ | ⟨b, _ | ⟨c, _ | ⟨d, t⟩⟩⟩⟩ <;> simp at ht
  subst ht
  have hlen4 : i + (List.length [a, b, c, d]) ≤ buf.length := by
    simpa using hle
  have e0 : getByte (splice buf i [a, b, c, d]) i = a := by
    rw [getByte_splice_mid (by omega) (by simp) hlen4]
    have h0 : i - i = 0 := by omega
    rw [h0]
    rfl
  have e1 : getByte (splice buf i [a, b, c, d]) (i + 1) = b := by
    rw [getByte_splice_mid (by omega) (by simp) hlen4]
    have h0 : i + 1 - i = 1 := by omega
    rw [h0]
    rfl
  have e2 : getByte (splice buf i [a, b, c, d]) (i + 2) = c := by
    rw [getByte_splice_mid (by omega) (by simp) hlen4]
    have h0 : i + 2 - i = 2 := by omega
    rw [h0]
    rfl
  have e3 : getByte (splice buf i [a, b, c, d]) (i + 3) = d := by
    rw [getByte_splice_mid (by omega) (by simp) hlen4]
    have h0 : i + 3 - i = 3 := by omega
    rw [h0]
    rfl
  unfold readTag
  rw [splice_length hlen4]
  rw [if_pos (by omega), e0, e1, e2, e3]

theorem Chunk.read_splice {buf t : List Nat} {i : Nat} (ht : t.length = 4)
    (hv : validUtf8 t = true) (hle : i + 4 ≤ buf.length) :
    Chunk.read (splice buf i t) i =
      rbind (readU32 (splice buf i t) (i + 4)) fun size q =>
        .ok ({ tag := t, size := size, position := i,
               next := i + size + 8 }, q) := by
  unfold Chunk.read
  rw [readTag_splice ht hle]
  simp only [rbind]
  rw [if_pos hv]

/-! The claims. -/

set_option maxRecDepth 100000

/-- C1 counterexample: `c1buf` is a legal buffer (its whole decode succeeds),
yet the vertex-block decoder for the chunk read at offset 73 (declared size
19, computed end offset 100) completes successfully with the cursor at 113,
not at the chunk's end offset 100.  So a chunk-body decoder can finish past
`start + size + 8` on a well-formed input. -/
theorem claim_C1_counterexample :
    B3D.read c1buf = .ok c1doc ∧
    Chunk.read c1buf 73 =
      .ok ({ tag := [86, 82, 84, 83], size := 19, position := 73,
             next := 100 }, 81) ∧
    Verts.read 114 c1buf 81 100 = .ok (c1verts, 113) ∧ (113 : Nat) ≠ 100 :=
  ⟨by rfl, by rfl, by rfl, by decide⟩

/-- C1 (amended): when any chunk-body decoder driven by the `eof` loop
(Verts::read, Tris::read, Mesh::read, Node::read, read_bones, read_keys,
read_textures, read_brushes, B3D::read's outer loop) completes successfully,
the cursor is at or past the chunk's computed end offset `start + size + 8`;
exact equality is not guaranteed (see the counterexample). -/
theorem claim_C1_amended :
    (∀ (fuel : Nat) (buf : List Nat) (pos next : Nat) (v : Verts) (q : Nat),
      Verts.read fuel buf pos next = .ok (v, q) → next ≤ q) ∧
    (∀ (fuel : Nat) (buf : List Nat) (pos next : Nat) (v : Tris) (q : Nat),
      Tris.read fuel buf pos next = .ok (v, q) → next ≤ q) ∧
    (∀ (fuel : Nat) (buf : List Nat) (pos next : Nat) (v : Mesh) (q : Nat),
      Mesh.read fuel buf pos next = .ok (v, q) → next ≤ q) ∧
    (∀ (fuel : Nat) (buf : List Nat) (pos next : Nat) (v : Node) (q : Nat),
      Node.read fuel buf pos next = .ok (v, q) → next ≤ q) ∧
    (∀ (fuel : Nat) (buf : List Nat) (pos next : Nat) (v : List Bone) (q : Nat),
      read_bones fuel buf pos next = .ok (v, q) → next ≤ q) ∧
    (∀ (fuel : Nat) (buf : List Nat) (pos next flags : Nat) (v : List Key)
      (q : Nat), read_keys fuel buf pos next flags = .ok (v, q) → next ≤ q) ∧
    (∀ (fuel : Nat) (buf : List Nat) (pos next : Nat) (v : List Texture)
      (q : Nat), read_textures fuel buf pos next = .ok (v, q) → next ≤ q) ∧
    (∀ (fuel : Nat) (buf : List Nat) (pos next : Nat) (v : List Brush)
      (q : Nat), read_brushes fuel buf pos next = .ok (v, q) → next ≤ q) ∧
    (∀ (fuel : Nat) (buf : List Nat) (pos next : Nat) (ts : List Texture)
      (bs : List Brush) (nd : Node) (out : List Texture × List Brush × Node)
      (q : Nat), topLoop fuel buf pos next ts bs nd = .ok (out, q) → next ≤ q) :=
  ⟨fun _ _ _ _ _ _ h => verts_read_ge h,
   fun _ _ _ _ _ _ h => tris_read_ge h,
   fun _ _ _ _ _ _ h => mesh_read_ge h,
   fun _ _ _ _ _ _ h => node_read_ge h,
   fun _ _ _ _ _ _ h => read_bones_ge _ h,
   fun _ _ _ _ _ _ _ h => read_keys_ge _ h,
   fun _ _ _ _ _ _ h => read_textures_ge _ h,
   fun _ _ _ _ _ _ h => read_brushes_ge h,
   fun _ _ _ _ _ _ _ _ _ h => topLoop_ge _ h⟩

/-- C1 witness: a concrete successful vertex-block decode, to which the
amended theorem applies; the final cursor 32 is at the chunk end 32. -/
theorem claim_C1_witness :
    Verts.read 5 vbuf 0 32 = .ok (⟨0, 0, 0, [zeroVert]⟩, 32) ∧
    (32 : Nat) ≤ 32 :=
  ⟨by rfl, claim_C1_amended.1 5 vbuf 0 32 ⟨0, 0, 0, [zeroVert]⟩ 32 (by rfl)⟩

/-- C2 (code bug): `c8buf` is well formed (first conjunct), and truncating it
at byte boundary 22 — inside the texture-name string of the "TEXS" chunk body
— makes the decode panic (`data.read_u8().unwrap()` hits end of buffer inside
`read_null_term_string`) instead of returning the I/O-bounds error the
specification promises for every truncation. -/
theorem claim_C2_failing :
    B3D.read c8buf = .ok c8doc ∧
    (c8buf.take 22).length = 22 ∧
    B3D.read (c8buf.take 22) = .error .panicEof ∧
    DErr.panicEof ≠ DErr.ioErr :=
  ⟨by rfl, by rfl, by rfl, by decide⟩

/-- C3 (code bug): on `c3buf`, whose single texture name is the byte 0xFF
followed by the terminator, the decode panics
(`String::from_utf8(string).unwrap()` in `read_null_term_string`) instead of
returning the text-decode error (`B3dError::Utf8`) to the caller. -/
theorem claim_C3_failing :
    B3D.read c3buf = .error .panicUtf8 ∧
    DErr.panicUtf8 ≠ DErr.utf8Err ∧
    validUtf8 [255] = false :=
  ⟨by rfl, by decide, by rfl⟩

/-- C4: an invalid-chunk error is produced exactly at the tag dispatches.
Soundness: whenever `B3D.read` fails with an invalid-chunk error, the carried
chunk was actually read at its recorded byte offset (so the error carries the
offending tag, declared size and offset, with `next = position + size + 8`),
and either it is the outer chunk at offset 0 with a tag other than "BB3D", or
its tag is illegal for the top level, or illegal for the node level.
Completeness: an outer tag other than "BB3D" always yields exactly that
error, and each dispatch loop fails with exactly that error the moment it
reads a chunk whose tag is illegal at its level. -/
theorem claim_C4 :
    (∀ (buf : List Nat) (c : Chunk), B3D.read buf = .error (.invalidChunk c) →
      Chunk.read buf c.position = .ok (c, c.position + 8) ∧
      c.next = c.position + c.size + 8 ∧
      ((c.position = 0 ∧ c.tag ≠ tBB3D) ∨ ¬ topLegalP c.tag ∨
        ¬ nodeLegalP c.tag)) ∧
    (∀ (buf : List Nat) (c : Chunk) (p : Nat), Chunk.read buf 0 = .ok (c, p) →
      c.tag ≠ tBB3D → B3D.read buf = .error (.invalidChunk c)) ∧
    (∀ (fuel : Nat) (buf : List Nat) (pos next : Nat) (ts : List Texture)
      (bs : List Brush) (nd : Node) (c : Chunk) (p : Nat), pos < next →
      Chunk.read buf pos = .ok (c, p) → ¬ topLegalP c.tag →
      topLoop (fuel + 1) buf pos next ts bs nd = .error (.invalidChunk c)) ∧
    (∀ (fuel : Nat) (buf : List Nat) (pos next : Nat) (n : Node) (c : Chunk)
      (p : Nat), pos < next → Chunk.read buf pos = .ok (c, p) →
      ¬ nodeLegalP c.tag →
      nodeLoop (fuel + 1) buf pos next n = .error (.invalidChunk c)) := by
  refine ⟨?_, ?_, ?_, ?_⟩
  · intro buf c h
    obtain ⟨hch, hleg⟩ := b3d_read_invalid h
    obtain ⟨-, -, hnext⟩ := Chunk.read_ok hch
    exact ⟨hch, hnext, hleg⟩
  · intro buf c p hch hne
    exact B3D.read_badMagic hch hne
  · intro fuel buf pos next ts bs nd c p hlt hch hleg
    exact topLoop_illegal hlt hch hleg
  · intro fuel buf pos next n c p hlt hch hleg
    exact nodeLoop_illegal hlt hch hleg

/-- C4 witness: the 8-byte buffer whose outer tag is "XXXX" decodes to
exactly the invalid-chunk error carrying that tag, size 0 and offset 0. -/
theorem claim_C4_witness :
    Chunk.read cbuf 0 =
      .ok ({ tag := [88, 88, 88, 88], size := 0, position := 0, next := 8 },
        8) ∧
    B3D.read cbuf =
      .error (.invalidChunk
        { tag := [88, 88, 88, 88], size := 0, position := 0, next := 8 }) :=
  ⟨by rfl,
   claim_C4.2.1 cbuf
     { tag := [88, 88, 88, 88], size := 0, position := 0, next := 8 } 8
     (by rfl) (by decide)⟩

/-- C5: every brush decoded by `read_brushes` carries exactly as many texture
indices as the texture-per-brush count read at the start of the "BRUS" chunk
body, and in every successfully decoded document all brushes have
texture-index lists of one common length. -/
theorem claim_C5 :
    (∀ (fuel : Nat) (buf : List Nat) (pos next : Nat) (bs : List Brush)
      (q n p : Nat), read_brushes fuel buf pos next = .ok (bs, q) →
      readU32 buf pos = .ok (n, p) →
      ∀ b ∈ bs, b.texture_id.length = n) ∧
    (∀ (buf : List Nat) (doc : B3D), B3D.read buf = .ok doc →
      ∃ n, ∀ b ∈ doc.brushes, b.texture_id.length = n) := by
  constructor
  · intro fuel buf pos next bs q n p h hn
    obtain ⟨n2, p2, hn2, hlen⟩ := read_brushes_texlen h
    rw [hn] at hn2
    cases hn2
    exact hlen
  · intro buf doc h
    unfold B3D.read at h
    split at h
    · cases h
    · rename_i main p hch
      split at h
      · split at h
        · cases h
        · rename_i version p1 hu
          split at h
          · cases h
          · rename_i ts2 bs2 nd2 q2 ht
            cases h
            exact topLoop_brushlen _ ht
              ⟨0, fun b hb => absurd hb (List.not_mem_nil b)⟩
      · cases h

/-- C5 witness: the brush section of `c8buf` (chunk body at offset 62, end
99) declares count 1 and its single brush has exactly one texture index. -/
theorem claim_C5_witness :
    read_brushes 100 c8buf 62 99 = .ok (c8doc.brushes, 99) ∧
    readU32 c8buf 62 = .ok (1, 66) ∧
    ∀ b ∈ c8doc.brushes, b.texture_id.length = 1 :=
  ⟨by rfl, by rfl,
   claim_C5.1 100 c8buf 62 99 c8doc.brushes 99 1 66 (by rfl) (by rfl)⟩

/-- C6: in every successfully decoded vertex block, if flag bit 0 is clear
every vertex normal is exactly zero in all three components, and if flag bit
1 is clear every vertex color is exactly zero in all four components. -/
theorem claim_C6 :
    ∀ (fuel : Nat) (buf : List Nat) (pos next : Nat) (v : Verts) (q : Nat),
      Verts.read fuel buf pos next = .ok (v, q) →
      ∀ x ∈ v.vertices, (v.flags &&& 1 = 0 → x.normal = (0, 0, 0)) ∧
        (v.flags &&& 2 = 0 → x.color = (0, 0, 0, 0)) :=
  fun _ _ _ _ _ _ h => verts_read_zero h

/-- C6 witness: the concrete vertex block `vbuf` decodes with flags 0 and its
single vertex has zero normal and zero color. -/
theorem claim_C6_witness :
    Verts.read 5 vbuf 0 32 = .ok (⟨0, 0, 0, [zeroVert]⟩, 32) ∧
    zeroVert.normal = (0, 0, 0) ∧ zeroVert.color = (0, 0, 0, 0) :=
  ⟨by rfl,
   (claim_C6 5 vbuf 0 32 ⟨0, 0, 0, [zeroVert]⟩ 32 (by rfl) zeroVert
     (by simp)).1 (by decide),
   (claim_C6 5 vbuf 0 32 ⟨0, 0, 0, [zeroVert]⟩ 32 (by rfl) zeroVert
     (by simp)).2 (by decide)⟩

/-- C7: in every successful decode, the document's root node is the node
decoded from the last top-level "NODE" chunk in the processed chunk sequence
(each "NODE" decode overwrites the previous root without error). -/
theorem claim_C7 :
    ∀ (buf : List Nat) (doc : B3D), B3D.read buf = .ok doc →
      ∃ cs, B3D.topChunks buf = some cs ∧
        ∀ c, lastNodeChunk cs = some c →
          ∃ f r, Node.read f buf (c.position + 8) c.next = .ok (doc.node, r) := by
  intro buf doc h
  obtain ⟨cs, htr, hP⟩ := B3D.read_trace h
  refine ⟨cs, htr, ?_⟩
  intro c hc
  rcases hP with ⟨hnone, -⟩ | ⟨c2, hc2, hex⟩
  · rw [hnone] at hc; cases hc
  · rw [hc2] at hc; cases hc; exact hex

/-- C7 witness: `c7buf` holds two top-level "NODE" chunks; the decode
succeeds and the theorem applies, with the root being the decode of the
second (last) node chunk, whose position field starts with bit pattern 2. -/
theorem claim_C7_witness :
    B3D.read c7buf = .ok c7doc ∧
    (∃ cs, B3D.topChunks c7buf = some cs ∧
      ∀ c, lastNodeChunk cs = some c →
        ∃ f r, Node.read f c7buf (c.position + 8) c.next =
          .ok (c7doc.node, r)) :=
  ⟨by rfl, claim_C7 c7buf c7doc (by rfl)⟩

/-- C8: the concrete scenario buffer decodes to exactly the expected
document: version 1, one texture with file "a.png", one brush with texture
index list [0], and a root node named "Root" with no children and a default
mesh. -/
theorem claim_C8 :
    B3D.read c8buf = .ok c8doc ∧
    c8doc.version = 1 ∧
    c8doc.textures.map Texture.file = [[97, 46, 112, 110, 103]] ∧
    c8doc.brushes.map Brush.texture_id = [[0]] ∧
    c8doc.node.name = [82, 111, 111, 116] ∧
    c8doc.node.children = [] ∧
    c8doc.node.mesh = Mesh.default :=
  ⟨by rfl, rfl, by rfl, by rfl, rfl, rfl, rfl⟩

/-- C9: when a decode succeeds and its top-level chunk sequence contains no
"NODE" chunk, the root node is the default node: empty name, zero position,
zero scale, zero rotation, default (empty) mesh, and no bones, keys,
children or sequences. -/
theorem claim_C9 :
    ∀ (buf : List Nat) (doc : B3D) (cs : List Chunk),
      B3D.read buf = .ok doc → B3D.topChunks buf = some cs →
      (∀ c ∈ cs, c.tag ≠ tNODE) →
      doc.node = Node.default ∧ doc.node.name = [] ∧
      doc.node.position = (0, 0, 0) ∧ doc.node.scale = (0, 0, 0) ∧
      doc.node.rotation = (0, 0, 0, 0) ∧ doc.node.mesh = Mesh.default ∧
      doc.node.bones = [] ∧ doc.node.keys = [] ∧ doc.node.children = [] ∧
      doc.node.sequences = [] := by
  intro buf doc cs h htr hno
  obtain ⟨cs2, htr2, hP⟩ := B3D.read_trace h
  rw [htr] at htr2
  cases htr2
  rcases hP with ⟨-, hdef⟩ | ⟨c, hc, -⟩
  · refine ⟨hdef, ?_, ?_, ?_, ?_, ?_, ?_, ?_, ?_, ?_⟩ <;> rw [hdef] <;> rfl
  · rw [lastNodeChunk_of_noNode cs hno] at hc
    cases hc

/-- C9 witness: `c9buf` has no top-level chunks at all; the decode succeeds
with the default root node. -/
theorem claim_C9_witness :
    B3D.read c9buf = .ok c9doc ∧
    B3D.topChunks c9buf = some [] ∧
    c9doc.node = Node.default :=
  ⟨by rfl, by rfl,
   (claim_C9 c9buf c9doc [] (by rfl) (by rfl)
     (fun c hc => absurd hc (List.not_mem_nil c))).1⟩

/-- C10: mesh decoding never inspects sub-chunk tags.  First, `Mesh.read`
never returns an invalid-chunk error on any input.  Second, overwriting the
4 tag bytes of the first sub-chunk (read at offset pos + 4, decoded as the
vertex block) with any valid-UTF-8 tag leaves the whole mesh decode
unchanged.  Third, overwriting the 4 tag bytes of the sub-chunk at the head
of the triangle-block loop (decoded as a triangle block) with any
valid-UTF-8 tag likewise leaves the loop's result unchanged. -/
theorem claim_C10 :
    (∀ (fuel : Nat) (buf : List Nat) (pos next : Nat) (c : Chunk),
      Mesh.read fuel buf pos next ≠ .error (.invalidChunk c)) ∧
    (∀ (fuel : Nat) (buf t1 t2 : List Nat) (pos next : Nat),
      t1.length = 4 → t2.length = 4 → validUtf8 t1 → validUtf8 t2 →
      pos + 8 ≤ buf.length →
      Mesh.read fuel (splice buf (pos + 4) t1) pos next =
        Mesh.read fuel (splice buf (pos + 4) t2) pos next) ∧
    (∀ (fuel : Nat) (buf t1 t2 : List Nat) (pos next : Nat),
      t1.length = 4 → t2.length = 4 → validUtf8 t1 → validUtf8 t2 →
      pos + 4 ≤ buf.length →
      meshLoop fuel (splice buf pos t1) pos next =
        meshLoop fuel (splice buf pos t2) pos next) := by
  refine ⟨?_, ?_, ?_⟩
  · intro fuel buf pos next c h
    exact (mesh_read_plain h).elim
  · intro fuel buf t1 t2 pos next h1 h2 hv1 hv2 hle
    have hlen12 : t1.length = t2.length := by rw [h1, h2]
    have hle1 : pos + 4 + t1.length ≤ buf.length := by omega
    have hle2 : pos + 4 + t2.length ≤ buf.length := by omega
    have hL1 : (splice buf (pos + 4) t1).length = buf.length :=
      splice_length hle1
    have hL2 : (splice buf (pos + 4) t2).length = buf.length :=
      splice_length hle2
    have hagree : agreeFrom (pos + 8) (splice buf (pos + 4) t1)
        (splice buf (pos + 4) t2) := by
      have hA := splice_agree hlen12 hle1
      have he : pos + 4 + t1.length = pos + 8 := by omega
      rw [he] at hA
      exact hA
    unfold Mesh.read
    refine rbind_congr (readU32_congr (by rw [hL1, hL2])
      fun j hj hj4 => ?_) fun bid p1 hx => ?_
    · rw [getByte_splice_lt (by omega) hle1, getByte_splice_lt (by omega) hle2]
    · obtain ⟨hp1, -⟩ := readU32_ok hx
      subst hp1
      rw [Chunk.read_splice h1 hv1 (by omega),
        Chunk.read_splice h2 hv2 (by omega)]
      have he8 : pos + 4 + 4 = pos + 8 := by omega
      have hsz : readU32 (splice buf (pos + 4) t1) (pos + 4 + 4) =
          readU32 (splice buf (pos + 4) t2) (pos + 4 + 4) := by
        rw [he8]
        exact readU32_agree hagree
      rw [hsz]
      cases hR : readU32 (splice buf (pos + 4) t2) (pos + 4 + 4) with
      | error e => simp [rbind]
      | ok v =>
        obtain ⟨s, q⟩ := v
        obtain ⟨hq, -⟩ := readU32_ok hR
        subst hq
        simp only [rbind]
        refine rbind_congr
          (verts_read_agree (agreeFrom_mono hagree (by omega)))
          fun vs p3 hy => ?_
        have hp3 := verts_read_pos hy
        exact rbind_congr (meshLoop_agree _ (agreeFrom_mono hagree (by omega)))
          fun ts p4 hz => rfl
  · intro fuel buf t1 t2 pos next h1 h2 hv1 hv2 hle
    have hlen12 : t1.length = t2.length := by rw [h1, h2]
    have hle3 : pos + t1.length ≤ buf.length := by omega
    have hagree : agreeFrom (pos + 4) (splice buf pos t1)
        (splice buf pos t2) := by
      have hA := splice_agree hlen12 hle3
      have he : pos + t1.length = pos + 4 := by omega
      rw [he] at hA
      exact hA
    cases fuel with
    | zero => rfl
    | succ m =>
      unfold meshLoop
      by_cases hlt : pos < next
      · rw [if_pos hlt, if_pos hlt]
        rw [Chunk.read_splice h1 hv1 hle, Chunk.read_splice h2 hv2 hle]
        rw [readU32_agree hagree]
        cases hR : readU32 (splice buf pos t2) (pos + 4) with
        | error e => simp [rbind]
        | ok v =>
          obtain ⟨s, q⟩ := v
          obtain ⟨hq, -⟩ := readU32_ok hR
          subst hq
          simp only [rbind]
          refine rbind_congr
            (tris_read_agree (agreeFrom_mono hagree (by omega)))
            fun t p2 hy => ?_
          have hp2 := tris_read_pos hy
          exact rbind_congr (meshLoop_agree _ (agreeFrom_mono hagree (by omega)))
            fun r p3 hz => rfl
      · rw [if_neg hlt, if_neg hlt]

/-- C10 witness: on the concrete mesh body `mbuf`, retagging its sub-chunk
header at offset 4 with "VRTS" or with "QQQQ" yields the same successful
mesh decode. -/
theorem claim_C10_witness :
    Mesh.read 5 (splice mbuf 4 [86, 82, 84, 83]) 0 24 =
      Mesh.read 5 (splice mbuf 4 [81, 81, 81, 81]) 0 24 ∧
    Mesh.read 5 (splice mbuf 4 [86, 82, 84, 83]) 0 24 =
      .ok ({ brush_id := 0, vertices := ⟨0, 0, 0, []⟩, triangles := [] },
        24) :=
  ⟨claim_C10.2.1 5 mbuf [86, 82, 84, 83] [81, 81, 81, 81] 0 24 (by rfl)
    (by rfl) (by rfl) (by rfl) (by decide), by rfl⟩

end B3d
